import Mathlib

/-!
Verification of the decision core of the WhatsApp news agent
(`selenium_test.py` and `quantsearch.py`): a shallow embedding of the
conversation-memory store, the intent classifier (regex-pattern and
fuzzy-keyword scoring), the natural-language time-expression parser and the
per-message orchestrator `handle_message`, together with theorems settling
the specification's claims about them.

Modelling conventions:
* Python strings are `List Char` (inputs are ASCII).
* Python floats are modelled as exact rationals.  To keep every comparison
  kernel-computable we use `Q`, a num/den pair with a positive denominator
  and no gcd normalisation; ordering and equality are by cross
  multiplication.
* `datetime` values are modelled by their proleptic-Gregorian ordinal
  (`datetime.toordinal`, an `Int`; 0001-01-01 = 1) with explicit conversion
  to and from year/month/day for `strftime`, `strptime` and `replace`.
* `datetime.now()` used as a message timestamp is modelled by a strictly
  increasing counter carried in the memory state, so the SQL
  `ORDER BY timestamp` coincides with insertion order.
* External services (Qdrant vector search, SambaNova summarisation and chat
  completion) are oracles returning `Except Err α`; Python code without a
  `try`/`except` around a call propagates the error, code with one maps it
  to its fallback value exactly as the source does.
-/

set_option maxRecDepth 200000

/-- Characters Python's `str.split()` / `str.strip()` treat as whitespace
(ASCII fragment). -/
def pySpaceChar (c : Char) : Bool :=
  c = ' ' || c = '\t' || c = '\n' || c = '\x0d' || c = '\x0b' || c = '\x0c'

/-- Python's `\w` (ASCII fragment): letters, digits, underscore. -/
def isWordChar (c : Char) : Bool :=
  c.isAlpha || c.isDigit || c = '_'

/-- `str.lower()` (ASCII). -/
def pyLower (s : List Char) : List Char :=
  s.map Char.toLower

/-- `str.upper()` (ASCII). -/
def pyUpper (s : List Char) : List Char :=
  s.map Char.toUpper

/-- `str.strip()`: drop leading and trailing whitespace. -/
def pyStrip (s : List Char) : List Char :=
  ((s.dropWhile pySpaceChar).reverse.dropWhile pySpaceChar).reverse

/-- `str.split()` with no argument: split on runs of whitespace, no empty
parts. -/
def pySplit : List Char → List (List Char)
  | [] => []
  | c :: t =>
    if pySpaceChar c then pySplit t
    else
      match pySplit t with
      | [] => [[c]]
      | w :: ws =>
        match t with
        | [] => [[c]]
        | c2 :: _ => if pySpaceChar c2 then [c] :: w :: ws else (c :: w) :: ws

/-- `needle in hay` for Python strings: contiguous substring test. -/
def pySubstr (needle : List Char) : List Char → Bool
  | [] => decide (needle = [])
  | c :: t => decide (needle = (c :: t).take needle.length) || pySubstr needle t

/-- `str.startswith(pre)`. -/
def pyStartswith (pre s : List Char) : Bool :=
  decide (pre = s.take pre.length)

/-- `str.endswith(suf)`. -/
def pyEndswith (suf s : List Char) : Bool :=
  decide (suf = (s.reverse.take suf.length).reverse)

/-- The last `n` elements.  (`l[-n:]` for `n > 0`.) -/
def takeLast (n : Nat) (l : List α) : List α :=
  l.drop (l.length - n)

/-- Python's slice `l[-n:]`: for `n = 0` it is the whole list (since
`-0 == 0`), otherwise the last `n` elements. -/
def pyLastSlice (n : Nat) (l : List α) : List α :=
  if n = 0 then l else takeLast n l

/-- `sep.join(parts)`. -/
def pyJoin (sep : List Char) : List (List Char) → List Char
  | [] => []
  | [p] => p
  | p :: ps => p ++ sep ++ pyJoin sep ps

/-- Shorthand for string literals as `List Char`. -/
def chars (s : String) : List Char :=
  s.data

/-- Python floats modelled as exact rationals: a numerator/denominator pair
with a positive denominator and no normalisation, so that every arithmetic
operation and comparison reduces in the kernel. -/
structure Q where
  num : Int
  den : Int
  dpos : 0 < den

/-- Value equality of `Q` (cross multiplication). -/
def Q.qeq (a b : Q) : Prop := a.num * b.den = b.num * a.den

/-- `a ≤ b` on `Q` (cross multiplication; denominators are positive). -/
def Q.le (a b : Q) : Prop := a.num * b.den ≤ b.num * a.den

/-- `a < b` on `Q`. -/
def Q.lt (a b : Q) : Prop := a.num * b.den < b.num * a.den

instance (a b : Q) : Decidable (a.qeq b) := by unfold Q.qeq; infer_instance

instance (a b : Q) : Decidable (a.le b) := by unfold Q.le; infer_instance

instance (a b : Q) : Decidable (a.lt b) := by unfold Q.lt; infer_instance

def Q.zero : Q := ⟨0, 1, Int.one_pos⟩

def Q.one : Q := ⟨1, 1, Int.one_pos⟩

/-- The rational `n / d` for a positive literal denominator. -/
def Q.mk' (n : Int) (d : Int) (h : 0 < d := by decide) : Q := ⟨n, d, h⟩

def Q.add (a b : Q) : Q :=
  ⟨a.num * b.den + b.num * a.den, a.den * b.den, Int.mul_pos a.dpos b.dpos⟩

def Q.mul (a b : Q) : Q :=
  ⟨a.num * b.num, a.den * b.den, Int.mul_pos a.dpos b.dpos⟩

/-- `a / n` for a natural `n`; division by zero raises in Python and is
unreachable where this is used (it is junk `0` here). -/
def Q.divNat (a : Q) (n : Nat) : Q :=
  if h : 0 < n then
    ⟨a.num, a.den * (n : Int), Int.mul_pos a.dpos (by exact_mod_cast h)⟩
  else Q.zero

/-- The fraction `n / d` of naturals (`d = 0` is junk `0`, unreachable). -/
def Q.frac (n d : Nat) : Q :=
  if h : 0 < d then ⟨(n : Int), (d : Int), by exact_mod_cast h⟩ else Q.zero

/-- Python's `max(a, b)`: returns `b` exactly when `a < b`. -/
def Q.maxPy (a b : Q) : Q := if a.lt b then b else a

/-- Python's `min(a, b)`: returns `b` exactly when `b < a`. -/
def Q.minPy (a b : Q) : Q := if b.lt a then b else a

/-! ## A small regex engine

The source keeps its patterns as Python `re` literals.  Each literal is
translated below into a `Re` value; the matcher implements Python's
backtracking semantics for the constructs those literals use: leftmost
match, left-biased alternation, greedy `+`/`?`/`{1,2}`, word boundaries,
capturing groups, `findall` (with its string-vs-tuple result shape),
`search` and `sub`. -/

/-- The character classes occurring in the source's patterns. -/
inductive CC where
  | ws     -- `\s`
  | word   -- `\w`
  | digit  -- `\d`
  | d01    -- `[01]`
  | d12    -- `[12]`
  | d19    -- `[1-9]`

deriving Repr

def CC.mem : CC → Char → Bool
  | .ws, c => pySpaceChar c
  | .word, c => isWordChar c
  | .digit, c => c.isDigit
  | .d01, c => c = '0' || c = '1'
  | .d12, c => c = '1' || c = '2'
  | .d19, c => c.isDigit && c ≠ '0'

/-- Regular expressions: the fragment of Python `re` used by the source.
`grp` is a capturing group (the source never nests capturing groups). -/
inductive Re where
  | eps
  | lit (c : Char)
  | cls (cc : CC)
  | seq (a b : Re)
  | alt (a b : Re)
  | rep1 (cc : CC)  -- greedy `+` over a character class
  | opt (a : Re)    -- greedy `?`
  | grp (a : Re)
  | wordB           -- `\b`

deriving Repr

/-- Number of capturing groups (Python group count, for `findall`'s result
shape). -/
def Re.groups : Re → Nat
  | .eps | .lit _ | .cls _ | .rep1 _ | .wordB => 0
  | .seq a b | .alt a b => a.groups + b.groups
  | .opt a => a.groups
  | .grp a => a.groups + 1

/-- Length of the maximal run of characters of class `cc` at the front. -/
def ccRun (cc : CC) : List Char → Nat
  | [] => 0
  | c :: t => if cc.mem c then ccRun cc t + 1 else 0

/-- Try `k n`, `k (n-1)`, …, `k 1` in that order (greedy repetition). -/
def tryDown (k : Nat → Option α) : Nat → Option α
  | 0 => none
  | n + 1 =>
    match k (n + 1) with
    | some r => some r
    | none => tryDown k n

/-- The backtracking matcher in continuation-passing style.  State: `pw`
(whether the previous character is a word character, for `\b`), the
remaining input `s`, and the captures collected so far.  The first success
in Python's preference order wins. -/
def Re.run : Re → Bool → List Char → List (List Char) →
    (Bool → List Char → List (List Char) → Option α) → Option α
  | .eps, pw, s, caps, k => k pw s caps
  | .lit c, pw, s, caps, k =>
    match s with
    | [] => none
    | c2 :: t => if c2 = c then k (isWordChar c2) t caps else none
  | .cls cc, pw, s, caps, k =>
    match s with
    | [] => none
    | c2 :: t => if cc.mem c2 then k (isWordChar c2) t caps else none
  | .seq a b, pw, s, caps, k =>
    a.run pw s caps fun pw2 s2 caps2 => b.run pw2 s2 caps2 k
  | .alt a b, pw, s, caps, k =>
    match a.run pw s caps k with
    | some r => some r
    | none => b.run pw s caps k
  | .rep1 cc, pw, s, caps, k =>
    tryDown
      (fun n =>
        let pw2 := match (s.take n).getLast? with
          | some c => isWordChar c
          | none => pw
        k pw2 (s.drop n) caps)
      (ccRun cc s)
  | .opt a, pw, s, caps, k =>
    match a.run pw s caps k with
    | some r => some r
    | none => k pw s caps
  | .grp a, pw, s, caps, k =>
    a.run pw s caps fun pw2 s2 caps2 =>
      k pw2 s2 (caps2 ++ [s.take (s.length - s2.length)])
  | .wordB, pw, s, caps, k =>
    let nw := match s with
      | [] => false
      | c :: _ => isWordChar c
    if pw ≠ nw then k pw s caps else none

/-- Anchored match at the current position: the number of characters
consumed and the captures, for the first (leftmost-preference) success. -/
def reMatchAt (r : Re) (pw : Bool) (s : List Char) : Option (Nat × List (List Char)) :=
  r.run pw s [] fun _ s2 caps => some (s.length - s2.length, caps)

/-- `re.search` scanning: the earliest position with a match.  Returns
`(prefix, matched, captures, rest)`. -/
def reSearchCore (r : Re) (pw : Bool) (acc : List Char) (s : List Char) :
    Option (List Char × List Char × List (List Char) × List Char) :=
  match reMatchAt r pw s with
  | some (n, caps) => some (acc.reverse, s.take n, caps, s.drop n)
  | none =>
    match s with
    | [] => none
    | c :: t => reSearchCore r (isWordChar c) (c :: acc) t

def reSearch (r : Re) (s : List Char) :
    Option (List Char × List Char × List (List Char) × List Char) :=
  reSearchCore r false [] s

/-- Whether `re.search` finds a match. -/
def reSearchB (r : Re) (s : List Char) : Bool :=
  (reSearch r s).isSome

/-- `pw` to resume scanning after consuming `pre ++ m`. -/
def resumePw (pw : Bool) (consumed : List Char) : Bool :=
  match consumed.getLast? with
  | some c => isWordChar c
  | none => pw

/-- `re.findall`: all non-overlapping matches as `(matchedText, captures)`
pairs, scanning left to right (a zero-width match advances one character,
as in Python 3.7+). -/
def reFindallCore (r : Re) : Nat → Bool → List Char → List (List Char × List (List Char))
  | 0, _, _ => []
  | fuel + 1, pw, s =>
    match reSearchCore r pw [] s with
    | none => []
    | some (pre, m, caps, rest) =>
      if m.isEmpty then
        match rest with
        | [] => [(m, caps)]
        | c :: t => (m, caps) :: reFindallCore r fuel (isWordChar c) t
      else (m, caps) :: reFindallCore r fuel (resumePw pw (pre ++ m)) rest

def reFindall (r : Re) (s : List Char) : List (List Char × List (List Char)) :=
  reFindallCore r (s.length + 1) false s

/-- `len(m)` for each element of Python's `findall` result: the matched
string's length when the pattern has no group, the group's length for one
group, and the number of groups for two or more (a tuple's `len`). -/
def pyFindallLens (r : Re) (s : List Char) : List Nat :=
  (reFindall r s).map fun p =>
    if r.groups = 0 then p.1.length
    else if r.groups = 1 then (p.2.headD []).length
    else r.groups

/-- `re.sub(r, '', s)`: every match replaced by the empty string. -/
def reSubEmptyCore (r : Re) : Nat → Bool → List Char → List Char
  | 0, _, s => s
  | fuel + 1, pw, s =>
    match reSearchCore r pw [] s with
    | none => s
    | some (pre, m, _, rest) =>
      if m.isEmpty then
        match rest with
        | [] => pre
        | c :: t => pre ++ [c] ++ reSubEmptyCore r fuel (isWordChar c) t
      else pre ++ reSubEmptyCore r fuel (resumePw pw (pre ++ m)) rest

def reSubEmpty (r : Re) (s : List Char) : List Char :=
  reSubEmptyCore r (s.length + 1) false s

/-- `re.sub(r, '\1', s)`: every match replaced by its first capture. -/
def reSubG1Core (r : Re) : Nat → Bool → List Char → List Char
  | 0, _, s => s
  | fuel + 1, pw, s =>
    match reSearchCore r pw [] s with
    | none => s
    | some (pre, m, caps, rest) =>
      if m.isEmpty then
        match rest with
        | [] => pre ++ caps.headD []
        | c :: t => pre ++ caps.headD [] ++ [c] ++ reSubG1Core r fuel (isWordChar c) t
      else pre ++ caps.headD [] ++ reSubG1Core r fuel (resumePw pw (pre ++ m)) rest

def reSubG1 (r : Re) (s : List Char) : List Char :=
  reSubG1Core r (s.length + 1) false s

/-- Alternation of a list of regexes, left-biased like Python's `|`. -/
def ralts : List Re → Re
  | [] => .eps
  | [r] => r
  | r :: rs => .alt r (ralts rs)

/-- A literal string as a regex. -/
def rstr (s : String) : Re :=
  s.data.foldr (fun c r => Re.seq (.lit c) r) .eps

/-- Alternation of literal strings. -/
def raltsS (ss : List String) : Re :=
  ralts (ss.map rstr)

/-- Sequencing of a list of regexes. -/
def rseq (rs : List Re) : Re :=
  rs.foldr Re.seq .eps

/-- `\s+`. -/
def rws : Re := .rep1 .ws

/-! ## `difflib.SequenceMatcher` (no junk: the strings compared are short,
and autojunk only applies to sequences of 200 or more elements) -/

/-- One row of the `find_longest_match` dynamic program: entry `j` is the
length of the longest common block ending at `a[i]`, `b[j]`. -/
def flmRow (ai : Char) (b : List Char) (blo bhi : Nat) (prev : List Nat) : List Nat :=
  (List.range b.length).map fun j =>
    if blo ≤ j ∧ j < bhi ∧ b.getD j ' ' = ai then
      (if j = 0 then 0 else prev.getD (j - 1) 0) + 1
    else 0

/-- Update the best block from one row, scanning `j` ascending; only a
strictly longer block replaces the current best (difflib's tie-break). -/
def flmScan (row : List Nat) (i : Nat) (best : Nat × Nat × Nat) : Nat × Nat × Nat :=
  (List.range row.length).foldl
    (fun bst j =>
      let k := row.getD j 0
      if k > bst.2.2 then (i + 1 - k, j + 1 - k, k) else bst)
    best

def flmLoop (a b : List Char) (blo bhi : Nat) :
    List Nat → List Nat → Nat × Nat × Nat → Nat × Nat × Nat
  | [], _, best => best
  | i :: is, prev, best =>
    let row := flmRow (a.getD i ' ') b blo bhi prev
    flmLoop a b blo bhi is row (flmScan row i best)

/-- `SequenceMatcher.find_longest_match` on `a[alo:ahi]` and `b[blo:bhi]`
(with an empty junk set): `(besti, bestj, bestsize)`. -/
def findLongestMatch (a b : List Char) (alo ahi blo bhi : Nat) : Nat × Nat × Nat :=
  flmLoop a b blo bhi (List.range' alo (ahi - alo)) (List.replicate b.length 0) (alo, blo, 0)

/-- Total size of all matching blocks (the `M` of `ratio`): the recursive
split of `get_matching_blocks` around each longest match. -/
def smTotalAux (a b : List Char) : Nat → Nat → Nat → Nat → Nat → Nat
  | 0, _, _, _, _ => 0
  | fuel + 1, alo, ahi, blo, bhi =>
    let r := findLongestMatch a b alo ahi blo bhi
    if r.2.2 = 0 then 0
    else
      smTotalAux a b fuel alo r.1 blo r.2.1 + r.2.2 +
        smTotalAux a b fuel (r.1 + r.2.2) ahi (r.2.1 + r.2.2) bhi

def smTotal (a b : List Char) : Nat :=
  smTotalAux a b (a.length + b.length + 1) 0 a.length 0 b.length

/-- `SequenceMatcher(None, a, b).ratio() = 2*M/(|a|+|b|)`, and `1.0` when
both strings are empty. -/
def smMatchScore (a b : List Char) : Q :=
  if a.length + b.length = 0 then Q.one else Q.frac (2 * smTotal a b) (a.length + b.length)

/-! ## `IntentClassifier` -/

/-- One intent's configuration (`IntentDefinition`): regex patterns,
keywords and an optional per-intent threshold (`intent_config.get('threshold', …)`). -/
structure IntentCfg where
  patterns : List Re
  keywords : List (List Char)
  threshold : Option Q

/-- The `settings` dictionary; a missing key falls back to the hard-coded
default at each use site (`settings.get(key, default)`). -/
structure Settings where
  pattern_weight : Option Q
  keyword_weight : Option Q
  default_threshold : Option Q
  fuzzy_match_threshold : Option Q

/-- `IntentClassifier._pattern_match_score`: over the patterns with at least
one `findall` hit, the maximum of `min(1, 2 * Σ len(match) / len(message))`.
(The division is by the message length; the classifier only reaches this
with a non-empty message.) -/
def pattern_match_score (message : List Char) (patterns : List Re) : Q :=
  patterns.foldl
    (fun maxScore p =>
      let lens := pyFindallLens p message
      if lens.isEmpty then maxScore
      else
        let matchCover := Q.frac (lens.foldl (· + ·) 0) message.length
        maxScore.maxPy (Q.minPy Q.one (matchCover.mul (Q.mk' 2 1))))
    Q.zero

/-- `IntentClassifier._keyword_match_score`: average over the message's
whitespace words of the best fuzzy similarity to a keyword, counting only
similarities at or above the fuzzy threshold. -/
def keyword_match_score (settings : Settings) (message : List Char)
    (keywords : List (List Char)) : Q :=
  let words := pySplit message
  if words.isEmpty then Q.zero
  else
    let fuzzy := settings.fuzzy_match_threshold.getD (Q.mk' 4 5)
    let total := words.foldl
      (fun tot w =>
        let best := keywords.foldl
          (fun bst kw =>
            let sim := smMatchScore w kw
            if fuzzy.le sim then bst.maxPy sim else bst)
          Q.zero
        tot.add best)
      Q.zero
    total.divNat words.length

/-- `IntentClassifier._calculate_intent_score`. -/
def calculate_intent_score (settings : Settings) (message : List Char)
    (cfg : IntentCfg) : Q :=
  let ps := pattern_match_score message cfg.patterns
  let ks := keyword_match_score settings message cfg.keywords
  (ps.mul (settings.pattern_weight.getD (Q.mk' 7 10))).add
    (ks.mul (settings.keyword_weight.getD (Q.mk' 3 10)))

/-- The effective threshold of an intent
(`intent_config.get('threshold', settings.get('default_threshold', 0.5))`). -/
def intentThreshold (settings : Settings) (cfg : IntentCfg) : Q :=
  cfg.threshold.getD (settings.default_threshold.getD (Q.mk' 1 2))

/-- One step of `classify_intent`'s loop: a candidate replaces the best so
far only when its score is strictly greater and meets its threshold. -/
def classifyStep (settings : Settings) (ml : List Char)
    (best : Option (List Char) × Q) (nc : List Char × IntentCfg) :
    Option (List Char) × Q :=
  let score := calculate_intent_score settings ml nc.2
  if best.2.lt score ∧ (intentThreshold settings nc.2).le score then (some nc.1, score)
  else best

/-- `IntentClassifier.classify_intent`: `(intent_name, confidence)`, with
`(None, 0.0)` for an empty or all-whitespace message.  `intents` is the
configuration in declaration order (Python dicts iterate in insertion
order). -/
def classify_intent (intents : List (List Char × IntentCfg)) (settings : Settings)
    (message : List Char) : Option (List Char) × Q :=
  if pyStrip message = [] then (none, Q.zero)
  else
    let ml := pyStrip (pyLower message)
    intents.foldl (classifyStep settings ml) (none, Q.zero)

/-- `IntentClassifier.classify_multiple_intents`: every intent meeting its
threshold, sorted by confidence descending (Python's stable sort). -/
def classify_multiple_intents (intents : List (List Char × IntentCfg))
    (settings : Settings) (message : List Char) : List (List Char × Q) :=
  if pyStrip message = [] then []
  else
    let ml := pyStrip (pyLower message)
    let detected := intents.filterMap fun nc =>
      let score := calculate_intent_score settings ml nc.2
      if (intentThreshold settings nc.2).le score then some (nc.1, score) else none
    detected.mergeSort fun x y => decide (y.2.le x.2)

/-- `IntentClassifier.is_news_pattern`. -/
def is_news_pattern (newsPatterns : List Re) (message : List Char) : Bool :=
  newsPatterns.any fun p => reSearchB p (pyLower message)

/-! ## The built-in default configuration (`_load_default_config`)

The repository ships no `intent_config.json`, so the module-level
`intent_classifier` always falls back to this configuration. -/

/-- `\b(g1|…)\s+(g2|…)\b`. -/
def rp2 (g1 g2 : List String) : Re :=
  rseq [.wordB, .grp (raltsS g1), rws, .grp (raltsS g2), .wordB]

/-- `\bw1\s+w2\s+…\b` (plain words, no groups). -/
def rpw (ws' : List String) : Re :=
  rseq ([Re.wordB] ++ (ws'.map rstr).intersperse rws ++ [Re.wordB])

def dateRequestCfg : IntentCfg :=
  { patterns :=
      [ rp2 ["what", "when", "tell me", "give me", "show me", "what's", "what is"]
            ["day", "date", "today", "now"],
        rp2 ["today", "now"] ["date", "day"],
        rp2 ["date", "day"] ["today", "now"],
        rpw ["current", "date"],
        rpw ["today's", "date"],
        rpw ["date", "now"],
        rpw ["what", "date", "is", "it"],
        rseq [.wordB, rstr "can", rws, rstr "you", rws,
          .grp (raltsS ["tell", "give", "show"]), rws, rstr "me", rws,
          rstr "the", rws, rstr "date", .wordB] ],
    keywords := [chars "date", chars "today", chars "day", chars "now", chars "current"],
    threshold := some (Q.mk' 3 5) }

def nameRequestCfg : IntentCfg :=
  { patterns :=
      [ rp2 ["what", "tell me", "what's", "what is"]
            ["your", "your name", "should i call you"],
        rp2 ["call", "name"] ["you"],
        rpw ["do", "you", "have", "a", "name"],
        rpw ["what", "can", "i", "call", "you"],
        rpw ["your", "name"] ],
    keywords := [chars "name", chars "call", chars "you", chars "your"],
    threshold := some (Q.mk' 3 5) }

def capabilityQuestionCfg : IntentCfg :=
  { patterns :=
      [ rp2 ["are you", "do you", "can you"]
            ["aware", "know", "access", "get", "find", "browse", "read"],
        rseq [.wordB, .grp (raltsS ["where", "how"]), rws, rstr "do", rws,
          rstr "you", rws, .grp (raltsS ["get", "find", "access", "know"]), .wordB],
        rseq [.wordB, .grp (raltsS ["news sources", "information sources"]), .wordB],
        rpw ["intelligently", "aware"],
        rpw ["do", "you", "have", "access"],
        rpw ["can", "you", "read"] ],
    keywords := [chars "aware", chars "know", chars "access", chars "get", chars "find",
      chars "browse", chars "read", chars "sources", chars "information"],
    threshold := some (Q.mk' 1 2) }

def correctionCfg : IntentCfg :=
  { patterns :=
      [ rseq [.wordB, .grp (raltsS ["no", "wrong", "incorrect", "actually", "but", "however"]), .wordB],
        rp2 ["that's", "that is"] ["wrong", "not right", "incorrect"],
        rpw ["you're", "wrong"],
        rseq [.wordB, rstr "that's", rws, rstr "not", rws,
          .grp (raltsS ["right", "correct"]), .wordB] ],
    keywords := [chars "no", chars "wrong", chars "incorrect", chars "actually",
      chars "but", chars "however"],
    threshold := some (Q.mk' 7 10) }

def followUpCfg : IntentCfg :=
  { patterns :=
      [ rseq [.wordB, .grp (raltsS ["tell me", "explain", "elaborate"]), rws,
          rstr "more", .wordB],
        rseq [.wordB, .grp (raltsS ["what about", "more details", "what else"]), .wordB],
        rseq [.wordB, .grp (raltsS ["and also", "also", "additionally"]), .wordB],
        rseq [.wordB, .grp (raltsS ["what do you think", "your opinion", "your take"]), .wordB],
        rpw ["like", "explain"],
        rseq [.wordB, rstr "can", rws, rstr "you", rws,
          .grp (raltsS ["elaborate", "explain"]), .wordB] ],
    keywords := [chars "more", chars "further", chars "else", chars "also",
      chars "think", chars "opinion", chars "explain", chars "elaborate"],
    threshold := some (Q.mk' 1 2) }

/-- The default intents in declaration order. -/
def defaultIntents : List (List Char × IntentCfg) :=
  [ (chars "date_request", dateRequestCfg),
    (chars "name_request", nameRequestCfg),
    (chars "capability_question", capabilityQuestionCfg),
    (chars "correction", correctionCfg),
    (chars "follow_up", followUpCfg) ]

def defaultNewsPatterns : List Re :=
  [ rp2 ["tell me", "what's", "what is"]
        ["happening", "latest", "current", "trending", "breaking"],
    rp2 ["latest", "current", "trending", "breaking", "recent"]
        ["news", "developments", "updates"],
    rseq [.wordB, .grp (raltsS ["protest", "election", "government", "politics",
      "economy", "business"]), .wordB],
    rp2 ["kenya", "kenyan"] ["news", "politics", "economy"],
    rp2 ["what"] ["about", "regarding", "concerning"] ]

def defaultSettings : Settings :=
  { pattern_weight := some (Q.mk' 7 10),
    keyword_weight := some (Q.mk' 3 10),
    default_threshold := some (Q.mk' 1 2),
    fuzzy_match_threshold := some (Q.mk' 4 5) }

/-- `classify_intent` of the module-level classifier (default config). -/
def classifyDefault (message : List Char) : Option (List Char) × Q :=
  classify_intent defaultIntents defaultSettings message

/-! ## Dates

`datetime` values carry a proleptic-Gregorian ordinal (Python's
`date.toordinal()`: 0001-01-01 ↦ 1).  `toOrd`/`fromOrd` convert between the
ordinal and year/month/day exactly as the civil calendar does. -/

def isLeap (y : Int) : Bool :=
  y % 4 = 0 && (y % 100 ≠ 0 || y % 400 = 0)

def monthLengths (y : Int) : List Int :=
  [31, if isLeap y then 29 else 28, 31, 30, 31, 30, 31, 31, 30, 31, 30, 31]

/-- Days in the years before `y`. -/
def daysBeforeYear (y : Int) : Int :=
  365 * (y - 1) + (y - 1) / 4 - (y - 1) / 100 + (y - 1) / 400

/-- Days in the months of `y` before month `m`. -/
def daysBeforeMonth (y m : Int) : Int :=
  ((monthLengths y).take (m - 1).toNat).foldl (· + ·) 0

/-- `date(y, m, d).toordinal()`. -/
def toOrd (y m d : Int) : Int :=
  daysBeforeYear y + daysBeforeMonth y m + d

/-- Month and day within a year from a 1-based day of year. -/
def monthFromDoy : List Int → Int → Int → Int × Int
  | [], m, doy => (m, doy)
  | len :: rest, m, doy =>
    if doy ≤ len then (m, doy) else monthFromDoy rest (m + 1) (doy - len)

/-- `date.fromordinal(n)` as `(year, month, day)` (the 400/100/4/1-year
cycle decomposition of the civil calendar). -/
def fromOrd (n : Int) : Int × Int × Int :=
  let n0 := n - 1
  let n400 := n0.ediv 146097
  let r400 := n0.emod 146097
  let n100 := r400.ediv 36524
  let r100 := r400.emod 36524
  let n4 := r100.ediv 1461
  let r4 := r100.emod 1461
  let n1 := r4.ediv 365
  let r1 := r4.emod 365
  let year := n400 * 400 + n100 * 100 + n4 * 4 + n1 + 1
  if n1 = 4 ∨ n100 = 4 then (year - 1, 12, 31)
  else
    let md := monthFromDoy (monthLengths year) 1 (r1 + 1)
    (year, md.1, md.2)

/-- `date.weekday()`: Monday = 0 … Sunday = 6. -/
def pyWeekday (n : Int) : Int :=
  (n + 6) % 7

/-- A natural number as decimal digits, left-padded with zeros to width `w`. -/
def natPad (w : Nat) (n : Nat) : List Char :=
  let ds := Nat.toDigits 10 n
  List.replicate (w - ds.length) '0' ++ ds

/-- `strftime('%Y-%m-%d')` of the date with ordinal `n`. -/
def fmtOrd (n : Int) : List Char :=
  let ymd := fromOrd n
  natPad 4 ymd.1.toNat ++ [Char.ofNat 45] ++ natPad 2 ymd.2.1.toNat ++
    [Char.ofNat 45] ++ natPad 2 ymd.2.2.toNat

/-- `strftime('%B %d, %Y')` (e.g. "July 27, 2025"), for `get_current_date`. -/
def monthName (m : Int) : List Char :=
  match m with
  | 1 => chars "January" | 2 => chars "February" | 3 => chars "March"
  | 4 => chars "April" | 5 => chars "May" | 6 => chars "June"
  | 7 => chars "July" | 8 => chars "August" | 9 => chars "September"
  | 10 => chars "October" | 11 => chars "November" | 12 => chars "December"
  | _ => []

def fmtLongDate (n : Int) : List Char :=
  let ymd := fromOrd n
  monthName ymd.2.1 ++ [' '] ++ natPad 2 ymd.2.2.toNat ++ chars ", " ++
    natPad 4 ymd.1.toNat

/-! ## `NewsSearchAgent.parse_time_expression` and `_parse_relative_date` -/

/-- `re.sub(r'(\d{1,2})(st|nd|rd|th)', r'\1', ·)`'s pattern. -/
def ordinalSuffixPat : Re :=
  rseq [.grp (.seq (.cls .digit) (.opt (.cls .digit))),
    .grp (raltsS ["st", "nd", "rd", "th"])]

/-- The regex `strptime` compiles for `%d`: `(3[01]|[12]\d|0[1-9]|[1-9])`. -/
def strptimeDayRe : Re :=
  ralts [.seq (.lit '3') (.cls .d01), .seq (.cls .d12) (.cls .digit),
    .seq (.lit '0') (.cls .d19), .cls .d19]

def strptimeMonthNames : List String :=
  ["january", "february", "march", "april", "may", "june", "july",
   "august", "september", "october", "november", "december"]

/-- The regex `strptime` compiles for the format `"%d %B"` (whitespace in
the format becomes `\s+`; matching is case-insensitive, realised here by
matching the lowercased input). -/
def strptimeDayMonthRe : Re :=
  rseq [.grp strptimeDayRe, rws, .grp (raltsS strptimeMonthNames)]

/-- Month number from a (lowercase) full month name. -/
def monthIndex (s : List Char) : Int :=
  ((strptimeMonthNames.indexOf? s.asString).getD 0 : Nat) + 1

/-- Digits to a number (the day captured by `strptimeDayRe`). -/
def digitsToInt (s : List Char) : Int :=
  s.foldl (fun acc c => acc * 10 + ((c.toNat : Int) - 48)) 0

/-- `datetime.strptime(s, "%d %B")`: `some (month, day)` or `none` when the
string does not match in full or the day is out of range for the month in
the default year 1900 (so "29 february" and "31 april" fail). -/
def strptimeDayMonth (s : List Char) : Option (Int × Int) :=
  match reMatchAt strptimeDayMonthRe false (pyLower s) with
  | none => none
  | some (n, caps) =>
    if n = s.length then
      let d := digitsToInt (caps.getD 0 [])
      let m := monthIndex (caps.getD 1 [])
      if d ≤ (monthLengths 1900).getD (m - 1).toNat 0 then some (m, d) else none
    else none

/-- `re.search(r'last\s+(\w+)', ·)`'s pattern (note: no `\b`). -/
def lastWeekdayPat : Re :=
  rseq [rstr "last", rws, .grp (.rep1 .word)]

def weekdayNames : List String :=
  ["monday", "tuesday", "wednesday", "thursday", "friday", "saturday", "sunday"]

/-- `NewsSearchAgent._parse_relative_date(date_str, reference_date)`:
ordinal suffixes stripped, then a `"%d %B"` date in the reference year, then
`last <weekday>` resolved to the most recent prior occurrence, and otherwise
the reference date itself. -/
def parse_relative_date (ref : Int) (dateStr : List Char) : List Char :=
  let ds := reSubG1 ordinalSuffixPat dateStr
  match strptimeDayMonth ds with
  | some md => fmtOrd (toOrd (fromOrd ref).1 md.1 md.2)
  | none =>
    match reSearch lastWeekdayPat (pyLower ds) with
    | some r =>
      let wname := (r.2.2.1.headD []).asString
      match weekdayNames.indexOf? wname with
      | some widx =>
        let daysBack0 := (pyWeekday ref - (widx : Int)) % 7
        let daysBack := if daysBack0 = 0 then 7 else daysBack0
        fmtOrd (ref - daysBack)
      | none => fmtOrd ref
    | none => fmtOrd ref

/-- `\b(p1|p2)\b` for the relative-time vocabulary. -/
def rtp (ps : List String) : Re :=
  rseq [.wordB, .grp (raltsS ps), .wordB]

/-- The `time_patterns` dictionary of `parse_time_expression`, in
declaration order; each value is the `(start, end)` pair as a function of
the reference ordinal `now`. -/
def timePatterns : List (Re × (Int → Int × Int)) :=
  [ (rtp ["yesterday", "yesterday's"], fun n => (n - 1, n - 1)),
    (rtp ["today", "today's"], fun n => (n, n)),
    (rtp ["last week", "past week"], fun n => (n - 7, n)),
    (rtp ["this week"], fun n => (n - pyWeekday n, n)),
    (rtp ["last month", "past month"], fun n => (n - 30, n)),
    (rtp ["this month"], fun n => (toOrd (fromOrd n).1 (fromOrd n).2.1 1, n)),
    (rtp ["last year", "past year"], fun n => (n - 365, n)),
    (rtp ["this year"], fun n => (toOrd (fromOrd n).1 1 1, n)),
    (rtp ["last 3 days", "past 3 days"], fun n => (n - 3, n)),
    (rtp ["last 7 days", "past 7 days"], fun n => (n - 7, n)),
    (rtp ["last 30 days", "past 30 days"], fun n => (n - 30, n)),
    (rtp ["last 2 weeks", "past 2 weeks"], fun n => (n - 14, n)),
    (rtp ["last 3 weeks", "past 3 weeks"], fun n => (n - 21, n)) ]

/-- The loop over `time_patterns`: the first pattern that matches sets the
range, is stripped from the query (then `.strip()`), and breaks. -/
def timePatternLoop (now : Int) :
    List (Re × (Int → Int × Int)) → List Char →
    List Char × Option (List Char) × Option (List Char)
  | [], cq => (cq, none, none)
  | (p, f) :: rest, cq =>
    if reSearchB p cq then
      let se := f now
      (pyStrip (reSubEmpty p cq), some (fmtOrd se.1), some (fmtOrd se.2))
    else timePatternLoop now rest cq

/-- `\bfrom\s+(\d{1,2}(?:st|nd|rd|th)?\s+\w+)\s+to\s+(\d{1,2}(?:st|nd|rd|th)?\s+\w+)\b`. -/
def dateRangeSide : Re :=
  rseq [.seq (.cls .digit) (.opt (.cls .digit)),
    .opt (raltsS ["st", "nd", "rd", "th"]), rws, .rep1 .word]

def dateRangePat : Re :=
  rseq [.wordB, rstr "from", rws, .grp dateRangeSide, rws, rstr "to", rws,
    .grp dateRangeSide, .wordB]

/-- `NewsSearchAgent.parse_time_expression(query)`:
`(cleaned_query, start_date, end_date)`.  `now` is the reference ordinal
(`datetime.now()` in the source).  The `try/except` around the absolute
range is dead code — `_parse_relative_date` always returns a string — so it
is not modelled. -/
def parse_time_expression (now : Int) (query : List Char) :
    List Char × Option (List Char) × Option (List Char) :=
  let cq0 := pyLower query
  let r := timePatternLoop now timePatterns cq0
  match reSearch dateRangePat r.1 with
  | some m =>
    (pyStrip (reSubEmpty dateRangePat r.1),
     some (parse_relative_date now (m.2.2.1.getD 0 [])),
     some (parse_relative_date now (m.2.2.1.getD 1 [])))
  | none => r

/-! ## `ConversationMemory`

The SQLite store is modelled relationally: `msgDb` is the append-only
`conversations` table in insertion (autoincrement) order and `ctxDb` the
`conversation_context` table keyed by contact.  Message timestamps are the
strictly increasing counter `clock` (each `datetime.now()` at an
`add_message` ticks it), so `ORDER BY timestamp` coincides with insertion
order. -/

/-- The in-process `Message` dataclass. -/
structure MemMsg where
  ts : Nat
  sender : List Char
  content : List Char
  mtype : List Char

deriving DecidableEq, Repr

/-- A row of the `conversations` table. -/
structure DbRow where
  contact : List Char
  ts : Nat
  sender : List Char
  content : List Char
  mtype : List Char

deriving DecidableEq, Repr

/-- Association-list lookup (a Python dict keyed by contact name). -/
def alookup (m : List (List Char × α)) (k : List Char) : Option α :=
  (m.find? fun e => e.1 = k).map (·.2)

/-- Association-list update/insert. -/
def aset (m : List (List Char × α)) (k : List Char) (v : α) : List (List Char × α) :=
  match m with
  | [] => [(k, v)]
  | e :: t => if e.1 = k then (k, v) :: t else e :: aset t k v

/-- `ConversationMemory`'s state: the `current_conversations` defaultdict,
both tables, the configured window `w` (`max_context_messages`) and the
clock. -/
structure MemState where
  w : Nat
  cache : List (List Char × List MemMsg)
  msgDb : List DbRow
  ctxDb : List (List Char × (List Char × Nat))
  clock : Nat

deriving DecidableEq, Repr

def initMem (w : Nat) : MemState :=
  { w := w, cache := [], msgDb := [], ctxDb := [], clock := 0 }

/-- The rows of one contact, in insertion order. -/
def dbFor (st : MemState) (c : List Char) : List DbRow :=
  st.msgDb.filter fun r => decide (r.contact = c)

/-- `ConversationMemory.add_message`: append to the per-contact cache, trim
to the last `w` once the length exceeds `2 * w`, and unconditionally insert
the full message into the durable table. -/
def add_message (st : MemState) (c sender content mtype : List Char) : MemState :=
  let m : MemMsg := ⟨st.clock, sender, content, mtype⟩
  let cur := (alookup st.cache c).getD []
  let appended := cur ++ [m]
  let trimmed := if appended.length > st.w * 2 then pyLastSlice st.w appended else appended
  { st with
    cache := aset st.cache c trimmed,
    msgDb := st.msgDb ++ [⟨c, st.clock, sender, content, mtype⟩],
    clock := st.clock + 1 }

/-- `ConversationMemory._load_recent_messages`: the `w` most recent durable
rows of the contact, oldest first (`ORDER BY timestamp DESC LIMIT w`, then
reversed; timestamps are the insertion counter). -/
def load_recent_messages (st : MemState) (c : List Char) : List MemMsg :=
  (takeLast st.w (dbFor st c)).map fun r => ⟨r.ts, r.sender, r.content, r.mtype⟩

/-- Hours-to-clock-ticks constant for the 24-hour summary staleness bound
(the clock stands in for wall time; no claim exercises staleness). -/
def summaryTTL : Nat := 86400

/-- `ConversationMemory._generate_conversation_summary`: scan the 50 most
recent durable rows (most recent first), collect news queries and long
topics, render the template and write it back (unless there are no rows). -/
def generate_conversation_summary (st : MemState) (c : List Char) :
    List Char × MemState :=
  let rows := (takeLast 50 (dbFor st c)).reverse
  if rows.isEmpty then (chars "No previous conversation history.", st)
  else
    let newsQueries := (rows.filter fun r => decide (r.mtype = chars "news")).map (·.content)
    let topics := (rows.filter fun r =>
      decide (¬r.mtype = chars "news") && decide (r.content.length > 20)).map
        (·.content.take 100)
    let summary :=
      chars "Recent conversation with " ++ c ++ chars ". " ++
      (if newsQueries.isEmpty then []
       else chars "They've asked about: " ++ pyJoin (chars ", ") (pyLastSlice 3 newsQueries) ++ chars ". ") ++
      (if topics.isEmpty then []
       else chars "Recent topics discussed: " ++ pyJoin (chars ", ") (pyLastSlice 3 topics) ++ chars ".")
    (summary, { st with ctxDb := aset st.ctxDb c (summary, st.clock) })

/-- `ConversationMemory._get_conversation_summary`: reuse the cached summary
if it is younger than 24 hours, otherwise regenerate. -/
def get_conversation_summary (st : MemState) (c : List Char) : List Char × MemState :=
  match alookup st.ctxDb c with
  | some su => if st.clock < su.2 + summaryTTL then (su.1, st) else generate_conversation_summary st c
  | none => generate_conversation_summary st c

/-- `ConversationMemory._generate_system_prompt`. -/
def generate_system_prompt (st : MemState) (c : List Char) : List Char × MemState :=
  let r := get_conversation_summary st c
  (chars "You are a helpful AI assistant chatting with " ++ c ++
   chars " on WhatsApp.\n\nPrevious conversation context: " ++ r.1 ++
   chars "\n\nGuidelines:\n- Remember previous topics and maintain continuity\n- For capability questions about news, explain your process without searching\n- For actual news requests, provide recent information\n- Keep responses concise and WhatsApp-appropriate\n- Be conversational and natural",
   r.2)

/-- A role-tagged turn of the LLM context. -/
structure CtxMsg where
  role : List Char
  content : List Char

deriving DecidableEq, Repr

/-- `ConversationMemory.get_conversation_context`: load the cache from the
durable store when the contact is absent, then the optional system turn and
the `w` most recent cached turns.  Returns the context and the updated
state (the cache load and a possible summary write are side effects). -/
def get_conversation_context (st : MemState) (c : List Char)
    (includeSystemPrompt : Bool := true) : List CtxMsg × MemState :=
  let st1 := if (alookup st.cache c).isSome then st
    else { st with cache := aset st.cache c (load_recent_messages st c) }
  let msgs := (alookup st1.cache c).getD []
  let recent := if msgs.isEmpty then [] else pyLastSlice st1.w msgs
  let sysAndSt := if includeSystemPrompt then
      let r := generate_system_prompt st1 c
      ([⟨chars "system", r.1⟩], r.2)
    else ([], st1)
  (sysAndSt.1 ++ recent.map fun m =>
     ⟨if m.sender = chars "user" then chars "user" else chars "assistant", m.content⟩,
   sysAndSt.2)

/-! ## External capabilities and `NewsSearchAgent` search/summarise

External calls are oracles returning `Except`: a call the source wraps in
`try`/`except` maps errors to the source's fallback; a call it does not
wrap propagates them. -/

/-- A Qdrant payload: `payload.get(key, default)` is modelled by `Option`
fields with the source's defaults materialised in `search_articles`. -/
structure HitPayload where
  title : Option (List Char)
  url : Option (List Char)
  date : Option (List Char)
  category : Option (List Char)
  content : Option (List Char)
  subheadings : Option (List (List Char))

structure RawHit where
  score : Q
  payload : HitPayload

/-- A formatted search result dict. -/
structure SearchResult where
  score : Q
  title : List Char
  url : List Char
  date : List Char
  category : List Char
  content : List Char
  subheadings : List (List Char)

deriving instance DecidableEq for Except

/-- The orchestrator's collaborators: SambaNova clients, Qdrant searches,
the reference clock and the `random.random()` draw. -/
structure Env where
  sambaPresent : Bool
  searchPlain : List Char → Nat → Q → Except (List Char) (List RawHit)
  searchRange : List Char → List Char → List Char → Nat → Except (List Char) (List RawHit)
  summarizer : List Char → Nat → Except (List Char) (List Char)
  chatSimple : List Char → Except (List Char) (List Char)
  chatContext : List CtxMsg → Except (List Char) (List Char)
  llmYesNo : List Char → Except (List Char) (List Char)
  nowOrd : Int
  rand : Q

def materializeHit (h : RawHit) : SearchResult :=
  { score := h.score,
    title := h.payload.title.getD [],
    url := h.payload.url.getD [],
    date := h.payload.date.getD [],
    category := h.payload.category.getD [],
    content := h.payload.content.getD [],
    subheadings := h.payload.subheadings.getD [] }

/-- `NewsSearchAgent.search_articles`: vector search with `try`/`except`
returning `[]` on any error. -/
def search_articles (env : Env) (query : List Char) (topK : Nat) (thr : Q) :
    List SearchResult :=
  match env.searchPlain query topK thr with
  | .ok hits => hits.map materializeHit
  | .error _ => []

/-- `NewsSearchAgent.search_by_date_range`: likewise `[]` on any error
(the source's result dict has no `subheadings` key; the field defaults). -/
def search_by_date_range (env : Env) (query sd ed : List Char) (topK : Nat) :
    List SearchResult :=
  match env.searchRange query sd ed topK with
  | .ok hits => hits.map materializeHit
  | .error _ => []

/-- `NewsSearchAgent.summarize_with_sambanova`: the API error is caught and
becomes the bracketed error string (`str(e)` is the error's text). -/
def summarize_with_sambanova (env : Env) (text : List Char) (sentences : Nat) :
    List Char :=
  if env.sambaPresent = false then chars "[SambaNova client not initialized]"
  else
    match env.summarizer text sentences with
    | .ok r => pyStrip r
    | .error e => chars "[SambaNova API error: " ++ e ++ chars "]"

def sentPunct (c : Char) : Bool :=
  c = '.' || c = '!' || c = '?'

mutual

/-- `re.split(r'[.!?]+', content)`: accumulate the current part. -/
def splitSentA : List Char → List Char → List (List Char)
  | cur, [] => [cur.reverse]
  | cur, c :: t =>
    if sentPunct c then cur.reverse :: splitSentB t else splitSentA (c :: cur) t

/-- After a separator run: skip the rest of the run. -/
def splitSentB : List Char → List (List Char)
  | [] => [[]]
  | c :: t => if sentPunct c then splitSentB t else splitSentA [c] t

end

def splitSentences (content : List Char) : List (List Char) :=
  splitSentA [] content

/-- The truncation fallback: first `n` sentence parts joined by `'. '`,
stripped, with a final period appended when missing. -/
def truncationSummary (content : List Char) (nsent : Nat) : List Char :=
  let s := pyStrip (pyJoin (chars ". ") ((splitSentences content).take nsent))
  if ¬s.isEmpty ∧ pyEndswith (chars ".") s = false then s ++ chars "." else s

/-- `f"{score:.3f}"`: fixed three decimals with round-half-even, on the
exact rational standing in for the float. -/
def formatQ3 (q : Q) : List Char :=
  let v := q.num * 1000
  let quo := v.ediv q.den
  let rem := v.emod q.den
  let m := if 2 * rem > q.den then quo + 1
    else if 2 * rem < q.den then quo
    else if quo % 2 = 0 then quo else quo + 1
  let sign : List Char := if m < 0 then ['-'] else []
  let a := m.natAbs
  sign ++ Nat.toDigits 10 (a / 1000) ++ chars "." ++ natPad 3 (a % 1000)

/-- One result's summary in `search_and_summarize_time_aware`. -/
def resultSummary (env : Env) (nsent : Nat) (r : SearchResult) : List Char :=
  if ¬r.content.isEmpty ∧ env.sambaPresent then
    summarize_with_sambanova env r.content nsent
  else if ¬r.content.isEmpty then truncationSummary r.content nsent
  else chars "[No content available]"

/-- The per-article block of `search_and_summarize_time_aware` (the
triple-quoted f-string, leading and trailing newline included). -/
def articleBlock (env : Env) (nsent : Nat) (i : Nat) (r : SearchResult) : List Char :=
  chars "\n📄 Article " ++ Nat.toDigits 10 i ++ chars " (Score: " ++ formatQ3 r.score ++
  chars ")\n📰 Title: " ++ r.title ++
  chars "\n📅 Date: " ++ r.date ++
  chars "\n🏷️ Category: " ++ r.category ++
  chars "\n📝 Summary: " ++ resultSummary env nsent r ++
  chars "\n🔗 URL: " ++ r.url ++ chars "\n"

def articleBlocks (env : Env) (nsent : Nat) (i : Nat) :
    List SearchResult → List (List Char)
  | [] => []
  | r :: rest => articleBlock env nsent i r :: articleBlocks env nsent (i + 1) rest

/-- `NewsSearchAgent.search_and_summarize_time_aware`.  All external errors
are caught inside the search and summarise helpers, so this is total. -/
def search_and_summarize_time_aware (env : Env) (query : List Char)
    (topK : Nat := 3) (nsent : Nat := 2) (thr : Q := Q.mk' 1 2) : List Char :=
  let pt := parse_time_expression env.nowOrd query
  let cq := pt.1
  let timeInfo : List Char := match pt.2.1, pt.2.2 with
    | some sd, some ed => chars " from " ++ sd ++ chars " to " ++ ed
    | _, _ => []
  let results := match pt.2.1, pt.2.2 with
    | some sd, some ed => search_by_date_range env cq sd ed topK
    | _, _ => search_articles env cq topK thr
  if results.isEmpty then
    chars "No articles found for query: '" ++ cq ++ chars "'" ++ timeInfo
  else
    let header := chars "📰 Search Results for: '" ++ cq ++ chars "'" ++ timeInfo ++
      chars "\n" ++ List.replicate 60 '='
    pyJoin (chars "\n") (header :: articleBlocks env nsent 1 results)

/-! ## The orchestrator (`MemoryEnabledWhatsAppBot` and helpers) -/

def ending_phrases : List (List Char) :=
  [chars "that's all for today", chars "bye", chars "goodbye", chars "talk later",
   chars "thanks, that's enough", chars "see you later", chars "gotta go"]

/-- `is_conversation_ending`: any ending phrase as a substring of the
lowercased message. -/
def is_conversation_ending (message : List Char) : Bool :=
  ending_phrases.any fun p => pySubstr p (pyLower message)

def conversationEndingResponse : List Char :=
  chars "It was great chatting with you. Feel free to reach out whenever you'd like to discuss more news or topics. Have a great day!"

def followUpClarifyPrompt : List Char :=
  chars "I'd be happy to provide more details. Could you specify what aspect you'd like me to elaborate on?"

/-- The continuation-marker scan of `handle_follow_up_question`: the text
after the first of "more"/"further"/"else"/"also" that has words after it. -/
def extract_topic : List (List Char) → List Char
  | [] => []
  | w :: rest =>
    if (w = chars "more" ∨ w = chars "further" ∨ w = chars "else" ∨ w = chars "also") ∧
        ¬rest.isEmpty then
      pyJoin (chars " ") rest
    else extract_topic rest

/-- `handle_follow_up_question` (the `context` argument is unused in the
source). -/
def handle_follow_up_question (message : List Char) (_context : List CtxMsg) : List Char :=
  let topic := extract_topic (pySplit (pyLower message))
  if ¬topic.isEmpty then chars "Kenya " ++ topic
  else followUpClarifyPrompt

def correctionResponse : List Char :=
  chars "Thank you for the correction! I appreciate you helping me provide accurate information. I'll keep that in mind for our conversation. Is there anything else you'd like to discuss?"

def nameResponse : List Char :=
  chars "I don't have a personal name, but you can call me Assistant or AI for short. Some people also like to give me nicknames, so feel free to get creative if you'd like!"

def capabilityResponse : List Char :=
  chars "I'm an AI assistant with access to news articles from sources like People Daily, Standard Media, and other Kenyan news outlets. I can search through and summarize recent news content for you. However, I don't have real-time access to current events or personal experiences - my knowledge comes from the articles in my database. What would you like to know about?"

/-- `get_current_date()`. -/
def get_current_date (env : Env) : List Char :=
  fmtLongDate env.nowOrd

/-- `handle_multiple_intents`: `None` unless two or more intents qualify
and at least one has a canned answer. -/
def handle_multiple_intents (env : Env) (message : List Char) : Option (List Char) :=
  let ints := classify_multiple_intents defaultIntents defaultSettings message
  if ints.length = 0 ∨ ints.length = 1 then none
  else
    let responses := ints.filterMap fun iq =>
      if iq.1 = chars "date_request" then
        some (chars "Today is " ++ get_current_date env ++ chars ".")
      else if iq.1 = chars "name_request" then
        some (chars "I don't have a personal name, but you can call me Assistant or AI for short.")
      else if iq.1 = chars "capability_question" then
        some (chars "I'm an AI assistant with access to news articles from Kenyan sources.")
      else none
    if responses.isEmpty then none else some (pyJoin (chars " ") responses)

/-- `samba_general_chat`: canned answers for the special intents, otherwise
the chat-completion collaborator — whose errors are *not* caught. -/
def samba_general_chat (env : Env) (message : List Char) :
    Except (List Char) (List Char) :=
  match handle_multiple_intents env message with
  | some r => .ok r
  | none =>
    let intent := (classifyDefault message).1
    if intent = some (chars "date_request") then
      .ok (chars "Today is " ++ get_current_date env ++ chars ".")
    else if intent = some (chars "name_request") then .ok nameResponse
    else if intent = some (chars "capability_question") then .ok capabilityResponse
    else if intent = some (chars "correction") then .ok correctionResponse
    else env.chatSimple message

/-- `is_news_query_llm`: capability questions are never news; the lexical
news patterns decide next; the remaining cases ask the LLM classifier,
whose errors propagate (no `try`/`except` in the source). -/
def is_news_query_llm (env : Env) (message : List Char) : Except (List Char) Bool :=
  let intent := (classifyDefault message).1
  if intent = some (chars "capability_question") then .ok false
  else if is_news_pattern defaultNewsPatterns message then .ok true
  else
    match env.llmYesNo message with
    | .ok ans => .ok (pyStartswith (chars "YES") (pyUpper (pyStrip ans)))
    | .error e => .error e

/-- `log_conversation_metrics` re-runs `is_news_query_llm` for the metrics
record (the record itself is only printed, so only the call's error effect
is modelled). -/
def log_conversation_metrics (env : Env) (message : List Char) :
    Except (List Char) Unit := do
  let _ ← is_news_query_llm env message
  pure ()

/-- The `UserPreferences` table: `(contact, topic) ↦ count` upsert. -/
def track_interest (prefs : List ((List Char × List Char) × Nat))
    (c topic : List Char) : List ((List Char × List Char) × Nat) :=
  match prefs with
  | [] => [((c, topic), 1)]
  | e :: t =>
    if e.1 = (c, topic) then (e.1, e.2 + 1) :: t
    else e :: track_interest t c topic

/-- The bot's whole mutable state. -/
structure BotState where
  mem : MemState
  prefs : List ((List Char × List Char) × Nat)

deriving DecidableEq

/-- `MemoryEnabledWhatsAppBot.__init__` (memory window 8). -/
def initBot : BotState :=
  ⟨initMem 8, []⟩

def newsAttributionSuffix : List Char :=
  chars "\n\n📰 Sources: Verified news outlets"

/-- `enhance_response_quality`: news responses get the fixed attribution
suffix; chat responses get an emoji with probability 0.1 (`env.rand` is the
`random.random()` draw). -/
def enhance_response_quality (env : Env) (response mtype : List Char) : List Char :=
  if mtype = chars "news" then response ++ newsAttributionSuffix
  else if mtype = chars "chat" then
    if env.rand.lt (Q.mk' 1 10) then response ++ chars " 😊" else response
  else response

def newsInvite : List Char :=
  chars "\n\nWould you like me to look into any specific aspect of this topic?"

def followUpInvite : List Char :=
  chars "\n\nIs there anything specific about this topic you'd like me to explore further?"

/-- The follow-up / news / chat branch of `handle_message` (steps 4–6):
returns `(response, message_type, prefs)`. -/
def handleMessageBranch (env : Env) (st : BotState) (mem1 : MemState)
    (context : List CtxMsg) (c message : List Char) :
    Except (List Char) (List Char × List Char × List ((List Char × List Char) × Nat)) :=
  if (classifyDefault message).1 = some (chars "follow_up") then
    match ((alookup mem1.cache c).getD []).getLast? with
    | some lastMsg =>
      if lastMsg.mtype = chars "news" then
        let sq := handle_follow_up_question message context
        let response :=
          if ¬sq.isEmpty ∧ pyStartswith (chars "I'd be happy") sq = false then
            search_and_summarize_time_aware env sq ++ followUpInvite
          else sq
        .ok (response, chars "news", st.prefs)
      else do
        let r ← samba_general_chat env message
        pure (r, chars "chat", st.prefs)
    | none => do
      let r ← samba_general_chat env message
      pure (r, chars "chat", st.prefs)
  else do
    let isNews ← is_news_query_llm env message
    if isNews then
      let prefs2 := track_interest st.prefs c message
      pure (search_and_summarize_time_aware env message ++ newsInvite,
        chars "news", prefs2)
    else do
      let r ← samba_general_chat env message
      pure (r, chars "chat", st.prefs)

/-- `MemoryEnabledWhatsAppBot.handle_message`. -/
def handle_message (env : Env) (st : BotState) (c message : List Char) :
    Except (List Char) (List Char × BotState) := do
  if is_conversation_ending message then
    let response := conversationEndingResponse
    let m1 := add_message st.mem c (chars "user") message (chars "chat")
    let m2 := add_message m1 c (chars "bot") response (chars "chat")
    log_conversation_metrics env message
    return (response, ⟨m2, st.prefs⟩)
  else
    let intent := (classifyDefault message).1
    if intent = some (chars "date_request") ∨ intent = some (chars "name_request") ∨
        intent = some (chars "capability_question") ∨ intent = some (chars "correction") then do
      let response ← samba_general_chat env message
      let m1 := add_message st.mem c (chars "user") message (chars "chat")
      let m2 := add_message m1 c (chars "bot") response (chars "chat")
      log_conversation_metrics env message
      return (response, ⟨m2, st.prefs⟩)
    else do
      let ctxSt := get_conversation_context st.mem c
      let rmt ← handleMessageBranch env st ctxSt.2 ctxSt.1 c message
      let mtype := rmt.2.1
      let mA := add_message ctxSt.2 c (chars "user") message mtype
      let response := enhance_response_quality env rmt.1 mtype
      let mB := add_message mA c (chars "bot") response mtype
      log_conversation_metrics env message
      return (response, ⟨mB, rmt.2.2⟩)

/-! ## Shared concrete instances for witnesses and counterexamples -/

/-- A benign environment: empty search results, fixed replies, "NO" from
the news classifier, reference date 2025-07-27, `random.random() = 0.5`. -/
def okEnvW : Env :=
  { sambaPresent := true,
    searchPlain := fun _ _ _ => .ok [],
    searchRange := fun _ _ _ _ => .ok [],
    summarizer := fun _ _ => .ok (chars "summary"),
    chatSimple := fun _ => .ok (chars "chat reply"),
    chatContext := fun _ => .ok (chars "ctx reply"),
    llmYesNo := fun _ => .ok (chars "NO"),
    nowOrd := toOrd 2025 7 27,
    rand := Q.mk' 1 2 }

/-- `okEnvW` with a failing news/chat LLM classifier. -/
def failCatEnv : Env := { okEnvW with llmYesNo := fun _ => .error (chars "boom") }

/-- `okEnvW` with every external capability failing. -/
def allFailEnv : Env :=
  { okEnvW with
    searchPlain := fun _ _ _ => .error (chars "down"),
    searchRange := fun _ _ _ _ => .error (chars "down"),
    summarizer := fun _ _ => .error (chars "down"),
    chatSimple := fun _ => .error (chars "down"),
    chatContext := fun _ => .error (chars "down"),
    llmYesNo := fun _ => .error (chars "down") }

/-- Fresh bot state whose contact "myy" has one persisted news-typed
message. -/
def newsHistoryState : BotState :=
  ⟨add_message (initMem 8) (chars "myy") (chars "user") (chars "kenya politics")
    (chars "news"), []⟩

/-- Iterate `add_message` for one contact over a list of
(sender, content, message_type) triples. -/
def addAll (st : MemState) (c : List Char) :
    List (List Char × List Char × List Char) → MemState
  | [] => st
  | m :: rest => addAll (add_message st c m.1 m.2.1 m.2.2) c rest

/-- The `Message` values those calls construct (timestamps are consecutive
clock ticks). -/
def mkMsgs (clock : Nat) : List (List Char × List Char × List Char) → List MemMsg
  | [] => []
  | m :: rest => ⟨clock, m.1, m.2.1, m.2.2⟩ :: mkMsgs (clock + 1) rest

/-- The durable rows those calls insert. -/
def mkRows (c : List Char) (clock : Nat) :
    List (List Char × List Char × List Char) → List DbRow
  | [] => []
  | m :: rest => ⟨c, clock, m.1, m.2.1, m.2.2⟩ :: mkRows c (clock + 1) rest

/-- The three messages of the C1 witness (`W = 1`, so `2W+1 = 3`). -/
def c1msgs : List (List Char × List Char × List Char) :=
  [(chars "user", chars "a", chars "chat"),
   (chars "bot", chars "b", chars "chat"),
   (chars "user", chars "c", chars "chat")]

/-- The combined score `classify_intent` computes for one intent on a
message. -/
def intentScoreOf (settings : Settings) (message : List Char)
    (nc : List Char × IntentCfg) : Q :=
  calculate_intent_score settings (pyStrip (pyLower message)) nc.2

/-- An intent qualifies when its score meets its threshold (the claim's
notion of "qualifying"). -/
def intentQualifies (settings : Settings) (message : List Char)
    (nc : List Char × IntentCfg) : Prop :=
  (intentThreshold settings nc.2).le (intentScoreOf settings message nc)

instance : DecidableEq Q := fun a b =>
  if h : a.num = b.num ∧ a.den = b.den then
    isTrue (by cases a; cases b; simp_all)
  else isFalse (fun he => by cases he; exact h ⟨rfl, rfl⟩)

def trivialIntentCfg : IntentCfg := ⟨[], [], some Q.zero⟩

def witnessIntentCfg : IntentCfg := ⟨[], [chars "hi"], some Q.zero⟩

/-- The per-contact cache content `get_conversation_context` leaves in
place: the existing entry, or the rows loaded from the durable store. -/
def effectiveCache (st : MemState) (c : List Char) : List MemMsg :=
  match alookup st.cache c with
  | some l => l
  | none => load_recent_messages st c

/-! ## Theorems

The lemmas and the claim theorems C1 - C10: every definition above is
translated from the source; the theorems below settle the claims about
them. -/

theorem Q.le_refl (a : Q) : a.le a := Int.le_refl _

theorem Q.le_of_lt {a b : Q} (h : a.lt b) : a.le b := Int.le_of_lt h

theorem Q.not_lt_of_le {a b : Q} (h : a.le b) : ¬b.lt a := by
  unfold Q.le at h; unfold Q.lt; omega

theorem Q.le_of_not_lt {a b : Q} (h : ¬a.lt b) : b.le a := by
  unfold Q.lt at h; unfold Q.le; omega

theorem Q.le_trans {a b c : Q} (hab : a.le b) (hbc : b.le c) : a.le c := by
  unfold Q.le at *
  have h1 := mul_le_mul_of_nonneg_right hab (Int.le_of_lt c.dpos)
  have h2 := mul_le_mul_of_nonneg_right hbc (Int.le_of_lt a.dpos)
  have h3 : a.num * c.den * b.den ≤ c.num * a.den * b.den := by
    calc a.num * c.den * b.den = a.num * b.den * c.den := by ring
    _ ≤ b.num * a.den * c.den := h1
    _ = b.num * c.den * a.den := by ring
    _ ≤ c.num * b.den * a.den := h2
    _ = c.num * a.den * b.den := by ring
  exact Int.le_of_mul_le_mul_right h3 b.dpos

theorem Q.lt_of_lt_of_le {a b c : Q} (hab : a.lt b) (hbc : b.le c) : a.lt c := by
  unfold Q.lt at *; unfold Q.le at hbc
  have h1 := mul_lt_mul_of_pos_right hab c.dpos
  have h2 := mul_le_mul_of_nonneg_right hbc (Int.le_of_lt a.dpos)
  have h3 : a.num * c.den * b.den < c.num * a.den * b.den := by
    calc a.num * c.den * b.den = a.num * b.den * c.den := by ring
    _ < b.num * a.den * c.den := h1
    _ = b.num * c.den * a.den := by ring
    _ ≤ c.num * b.den * a.den := h2
    _ = c.num * a.den * b.den := by ring
  exact lt_of_mul_lt_mul_right h3 (Int.le_of_lt b.dpos)

theorem Q.le_of_le_of_lt {a b c : Q} (hab : a.le b) (hbc : b.lt c) : a.le c :=
  Q.le_trans hab (Q.le_of_lt hbc)

/-- C3: `parse_time_expression` on "news from last week" at reference time
2025-07-27 produces the range 2025-07-20 … 2025-07-27 as claimed, but the
cleaned query is "news from" — only the matched time phrase "last week" is
stripped — while the claim (and the function's own docstring) say "news". -/
theorem c3_parse_eval :
    parse_time_expression (toOrd 2025 7 27) (chars "news from last week") =
      (chars "news from", some (chars "2025-07-20"), some (chars "2025-07-27")) ∧
    chars "news from" ≠ chars "news" := by
  constructor <;> decide

/-- The `time_patterns` loop leaves the query untouched and sets no range
when no pattern matches. -/
theorem timePatternLoop_no_match (now : Int)
    (ps : List (Re × (Int → Int × Int))) (cq : List Char)
    (h : ∀ p ∈ ps, reSearchB p.1 cq = false) :
    timePatternLoop now ps cq = (cq, none, none) := by
  induction ps with
  | nil => rfl
  | cons p rest ih =>
    have hp : reSearchB p.1 cq = false := h p (List.mem_cons_self _ _)
    cases p with
    | mk re f =>
      simp only [timePatternLoop]
      rw [hp]
      simp only [Bool.false_eq_true, if_false]
      exact ih fun q hq => h q (List.mem_cons_of_mem _ hq)

/-- C7 (amended): when no relative-time pattern and no absolute range
pattern matches the lowercased query, `parse_time_expression` returns no
range and the *lowercased* query — unchanged character for character only
when the query has no uppercase letters. -/
theorem c7_no_match_returns_lowercased (now : Int) (q : List Char)
    (hrel : ∀ p ∈ timePatterns, reSearchB p.1 (pyLower q) = false)
    (habs : reSearch dateRangePat (pyLower q) = none) :
    parse_time_expression now q = (pyLower q, none, none) := by
  simp only [parse_time_expression]
  rw [timePatternLoop_no_match now timePatterns (pyLower q) hrel]
  simp only [habs]

/-- C7 (counterexample): on the query "News" nothing matches, yet the
returned query is "news", not the original "News". -/
theorem c7_counterexample :
    parse_time_expression (toOrd 2025 7 27) (chars "News") =
      (chars "news", none, none) ∧
    chars "news" ≠ chars "News" := by
  constructor <;> decide

/-- C7 witness: the amended theorem applied to the query "Bitcoin". -/
theorem c7_witness :
    parse_time_expression (toOrd 2025 7 27) (chars "Bitcoin") =
      (pyLower (chars "Bitcoin"), none, none) :=
  c7_no_match_returns_lowercased (toOrd 2025 7 27) (chars "Bitcoin")
    (by decide) (by decide)

/-- C8 (amended): `enhance_response_quality` appends the fixed attribution
suffix to a news-typed response exactly once *per call*; it is not
idempotent — a second application appends the suffix a second time
(a single application per response is only ensured by `handle_message`
calling it once per response). -/
theorem c8_news_suffix_per_call (env : Env) (response : List Char) :
    enhance_response_quality env response (chars "news") =
      response ++ newsAttributionSuffix ∧
    enhance_response_quality env
        (enhance_response_quality env response (chars "news")) (chars "news") =
      (response ++ newsAttributionSuffix) ++ newsAttributionSuffix := by
  constructor <;> simp [enhance_response_quality]

/-- C8 (counterexample): a second application changes the text again, so
the function is not idempotent. -/
theorem c8_counterexample :
    enhance_response_quality okEnvW
        (enhance_response_quality okEnvW (chars "x") (chars "news")) (chars "news") ≠
      enhance_response_quality okEnvW (chars "x") (chars "news") := by decide

/-- C9: under the built-in default configuration, classifying
"What's today's date?" yields the intent `date_request` with confidence at
least 0.6 (the exact score is 157/180 ≈ 0.872). -/
theorem c9_classify_date_request :
    (classifyDefault (chars "What's today's date?")).1 = some (chars "date_request") ∧
    (Q.mk' 3 5).le (classifyDefault (chars "What's today's date?")).2 := by
  constructor <;> decide

/-- Arithmetic of the `last <weekday>` resolution: the computed day is
strictly before the reference, at most 7 days back, and has the requested
weekday. -/
theorem lastWeekday_bounds (ref : Int) (t : Nat) (h7 : t < 7) :
    (ref - (if (pyWeekday ref - (t : Int)) % 7 = 0 then 7
      else (pyWeekday ref - (t : Int)) % 7)) < ref ∧
    ref - (ref - (if (pyWeekday ref - (t : Int)) % 7 = 0 then 7
      else (pyWeekday ref - (t : Int)) % 7)) ≤ 7 ∧
    pyWeekday (ref - (if (pyWeekday ref - (t : Int)) % 7 = 0 then 7
      else (pyWeekday ref - (t : Int)) % 7)) = (t : Int) := by
  unfold pyWeekday
  split_ifs with h <;> refine ⟨?_, ?_, ?_⟩ <;> omega

/-- C10: `_parse_relative_date` (1) returns the reference date itself for
every token that neither parses as a `"%d %B"` date nor contains a
recognized `last <weekday>` — it never signals "no match" — and
(2) resolves `last <weekday>` to the most recent occurrence of that weekday
strictly before the reference date (1 to 7 days back, a full week when the
weekdays coincide). -/
theorem c10_weekday_fallback :
    (∀ (ref : Int) (s : List Char),
      strptimeDayMonth (reSubG1 ordinalSuffixPat s) = none →
      (∀ r, reSearch lastWeekdayPat (pyLower (reSubG1 ordinalSuffixPat s)) = some r →
        weekdayNames.indexOf? (r.2.2.1.headD []).asString = none) →
      parse_relative_date ref s = fmtOrd ref) ∧
    (∀ (ref : Int) (w : String), w ∈ weekdayNames →
      ∃ n : Int, parse_relative_date ref (chars ("last " ++ w)) = fmtOrd n ∧
        n < ref ∧ ref - n ≤ 7 ∧ pyWeekday n = (weekdayNames.indexOf w : Int)) := by
  constructor
  · intro ref s h1 h2
    simp only [parse_relative_date]
    rw [h1]
    cases hs : reSearch lastWeekdayPat (pyLower (reSubG1 ordinalSuffixPat s)) with
    | none => rfl
    | some r =>
      have hidx := h2 r hs
      simp only [hidx]
  · intro ref w hw
    have hmem : w = "monday" ∨ w = "tuesday" ∨ w = "wednesday" ∨ w = "thursday" ∨
        w = "friday" ∨ w = "saturday" ∨ w = "sunday" := by
      simpa [weekdayNames] using hw
    rcases hmem with rfl | rfl | rfl | rfl | rfl | rfl | rfl
    · exact ⟨_, rfl, (lastWeekday_bounds ref 0 (by decide)).1,
        (lastWeekday_bounds ref 0 (by decide)).2.1, (lastWeekday_bounds ref 0 (by decide)).2.2⟩
    · exact ⟨_, rfl, (lastWeekday_bounds ref 1 (by decide)).1,
        (lastWeekday_bounds ref 1 (by decide)).2.1, (lastWeekday_bounds ref 1 (by decide)).2.2⟩
    · exact ⟨_, rfl, (lastWeekday_bounds ref 2 (by decide)).1,
        (lastWeekday_bounds ref 2 (by decide)).2.1, (lastWeekday_bounds ref 2 (by decide)).2.2⟩
    · exact ⟨_, rfl, (lastWeekday_bounds ref 3 (by decide)).1,
        (lastWeekday_bounds ref 3 (by decide)).2.1, (lastWeekday_bounds ref 3 (by decide)).2.2⟩
    · exact ⟨_, rfl, (lastWeekday_bounds ref 4 (by decide)).1,
        (lastWeekday_bounds ref 4 (by decide)).2.1, (lastWeekday_bounds ref 4 (by decide)).2.2⟩
    · exact ⟨_, rfl, (lastWeekday_bounds ref 5 (by decide)).1,
        (lastWeekday_bounds ref 5 (by decide)).2.1, (lastWeekday_bounds ref 5 (by decide)).2.2⟩
    · exact ⟨_, rfl, (lastWeekday_bounds ref 6 (by decide)).1,
        (lastWeekday_bounds ref 6 (by decide)).2.1, (lastWeekday_bounds ref 6 (by decide)).2.2⟩

/-- C10 witness: the unrecognized token "gibberish" falls back to the
reference date 2025-07-27, and "last sunday" resolves to a strictly earlier
same-weekday date. -/
theorem c10_witness :
    parse_relative_date (toOrd 2025 7 27) (chars "gibberish") = fmtOrd (toOrd 2025 7 27) ∧
    (∃ n : Int, parse_relative_date (toOrd 2025 7 27) (chars ("last " ++ "sunday")) = fmtOrd n ∧
      n < toOrd 2025 7 27 ∧ toOrd 2025 7 27 - n ≤ 7 ∧
      pyWeekday n = (weekdayNames.indexOf "sunday" : Int)) :=
  ⟨c10_weekday_fallback.1 (toOrd 2025 7 27) (chars "gibberish") (by decide)
      (fun r hr => by
        rw [show reSearch lastWeekdayPat (pyLower (reSubG1 ordinalSuffixPat (chars "gibberish"))) =
          none from by decide] at hr
        exact absurd hr (by simp)),
    c10_weekday_fallback.2 (toOrd 2025 7 27) "sunday" (by decide)⟩

theorem aset_lookup (m : List (List Char × α)) (k : List Char) (v : α) :
    alookup (aset m k v) k = some v := by
  induction m with
  | nil => simp [aset, alookup]
  | cons e t ih =>
    by_cases h : e.1 = k
    · simp [aset, h, alookup]
    · simp only [aset, if_neg h, alookup]
      rw [List.find?_cons_of_neg (aset t k v) (by simpa using h)]
      exact ih

theorem mkMsgs_length (clock : Nat) (l : List (List Char × List Char × List Char)) :
    (mkMsgs clock l).length = l.length := by
  induction l generalizing clock with
  | nil => rfl
  | cons m rest ih => simp [mkMsgs, ih]

theorem mkRows_length (c : List Char) (clock : Nat) (l : List (List Char × List Char × List Char)) :
    (mkRows c clock l).length = l.length := by
  induction l generalizing clock with
  | nil => rfl
  | cons m rest ih => simp [mkRows, ih]

theorem mkMsgs_append (clock : Nat) (a b : List (List Char × List Char × List Char)) :
    mkMsgs clock (a ++ b) = mkMsgs clock a ++ mkMsgs (clock + a.length) b := by
  induction a generalizing clock with
  | nil => simp [mkMsgs]
  | cons m rest ih =>
    have h1 : clock + 1 + rest.length = clock + (rest.length + 1) := by omega
    simp only [List.cons_append, List.append_eq, mkMsgs, ih, h1, List.length_cons]

theorem addAll_append (st : MemState) (c : List Char)
    (a b : List (List Char × List Char × List Char)) :
    addAll st c (a ++ b) = addAll (addAll st c a) c b := by
  induction a generalizing st with
  | nil => rfl
  | cons m rest ih =>
    simp only [List.cons_append, addAll]
    exact ih _

theorem addAll_w (st : MemState) (c : List Char) (l : List (List Char × List Char × List Char)) :
    (addAll st c l).w = st.w := by
  induction l generalizing st with
  | nil => rfl
  | cons m rest ih => simp only [addAll, ih, add_message]

theorem addAll_clock (st : MemState) (c : List Char) (l : List (List Char × List Char × List Char)) :
    (addAll st c l).clock = st.clock + l.length := by
  induction l generalizing st with
  | nil => rfl
  | cons m rest ih =>
    simp only [addAll, ih, add_message, List.length_cons]
    omega

theorem addAll_msgDb (st : MemState) (c : List Char) (l : List (List Char × List Char × List Char)) :
    (addAll st c l).msgDb = st.msgDb ++ mkRows c st.clock l := by
  induction l generalizing st with
  | nil => simp [addAll, mkRows]
  | cons m rest ih =>
    simp only [addAll, ih, add_message, mkRows]
    simp

theorem mkRows_filter_self (c : List Char) (clock : Nat)
    (l : List (List Char × List Char × List Char)) :
    (mkRows c clock l).filter (fun r => decide (r.contact = c)) = mkRows c clock l := by
  induction l generalizing clock with
  | nil => rfl
  | cons m rest ih => simp [mkRows, List.filter, ih]

theorem addAll_dbFor (st : MemState) (c : List Char) (l : List (List Char × List Char × List Char)) :
    dbFor (addAll st c l) c = dbFor st c ++ mkRows c st.clock l := by
  unfold dbFor
  rw [addAll_msgDb, List.filter_append, mkRows_filter_self]

theorem addAll_cache_no_trim (c : List Char) (l : List (List Char × List Char × List Char))
    (st : MemState) (l0 : List MemMsg)
    (hc : (alookup st.cache c).getD [] = l0)
    (hlen : l0.length + l.length ≤ st.w * 2) :
    (alookup (addAll st c l).cache c).getD [] = l0 ++ mkMsgs st.clock l := by
  induction l generalizing st l0 with
  | nil => simpa [addAll, mkMsgs] using hc
  | cons m rest ih =>
    simp only [addAll]
    have hnotrim : ¬(l0 ++ [(⟨st.clock, m.1, m.2.1, m.2.2⟩ : MemMsg)]).length > st.w * 2 := by
      simp only [List.length_append, List.length_cons, List.length_nil]
      simp only [List.length_cons] at hlen
      omega
    have hstep : (alookup (add_message st c m.1 m.2.1 m.2.2).cache c).getD [] =
        l0 ++ [⟨st.clock, m.1, m.2.1, m.2.2⟩] := by
      simp only [add_message, hc]
      rw [if_neg hnotrim]
      rw [aset_lookup]
      rfl
    have := ih (add_message st c m.1 m.2.1 m.2.2) (l0 ++ [⟨st.clock, m.1, m.2.1, m.2.2⟩]) hstep
      (by simp only [add_message, List.length_append, List.length_cons, List.length_nil]
          simp only [List.length_cons] at hlen
          omega)
    rw [this]
    simp only [add_message, mkMsgs]
    simp

theorem add_message_cache (st : MemState) (c s ct mt : List Char) :
    alookup (add_message st c s ct mt).cache c =
      some (if ((alookup st.cache c).getD [] ++ [(⟨st.clock, s, ct, mt⟩ : MemMsg)]).length > st.w * 2
        then pyLastSlice st.w ((alookup st.cache c).getD [] ++ [⟨st.clock, s, ct, mt⟩])
        else (alookup st.cache c).getD [] ++ [⟨st.clock, s, ct, mt⟩]) := by
  simp only [add_message]
  exact aset_lookup _ _ _

/-- C1: starting from a state in which the contact is fresh, `2W+1`
`add_message` calls (`W = max_context_messages ≥ 1`) leave the in-process
cache holding exactly the `W` most recent messages, while the durable table
holds all `2W+1` rows — the cache is trimmed (only once its length exceeds
`2W`) and the durable store never is. -/
theorem c1_bounded_cache_unbounded_log (w : Nat) (hw : 1 ≤ w) (st0 : MemState) (hw0 : st0.w = w) (c : List Char)
    (hcache : alookup st0.cache c = none) (hdb : dbFor st0 c = [])
    (msgs : List (List Char × List Char × List Char)) (hlen : msgs.length = 2 * w + 1) :
    alookup (addAll st0 c msgs).cache c = some (takeLast w (mkMsgs st0.clock msgs)) ∧
    (takeLast w (mkMsgs st0.clock msgs)).length = w ∧
    dbFor (addAll st0 c msgs) c = mkRows c st0.clock msgs ∧
    (mkRows c st0.clock msgs).length = 2 * w + 1 := by
  have hne : msgs ≠ [] := by
    intro h
    rw [h] at hlen
    simp at hlen
  have hdbc : dbFor (addAll st0 c msgs) c = mkRows c st0.clock msgs := by
    rw [addAll_dbFor, hdb, List.nil_append]
  have hrl : (mkRows c st0.clock msgs).length = 2 * w + 1 := by
    rw [mkRows_length, hlen]
  have hml : (mkMsgs st0.clock msgs).length = 2 * w + 1 := by
    rw [mkMsgs_length, hlen]
  have hlenTL : (takeLast w (mkMsgs st0.clock msgs)).length = w := by
    unfold takeLast
    rw [List.length_drop, hml]
    omega
  refine ⟨?_, hlenTL, hdbc, hrl⟩
  obtain ⟨pre, lastm, hsplit⟩ : ∃ pre lastm, msgs = pre ++ [lastm] :=
    ⟨msgs.dropLast, msgs.getLast hne, (List.dropLast_append_getLast hne).symm⟩
  subst hsplit
  have hprelen : pre.length = 2 * w := by
    simp only [List.length_append, List.length_cons, List.length_nil] at hlen
    omega
  have h1 : (alookup (addAll st0 c pre).cache c).getD [] = mkMsgs st0.clock pre :=
    addAll_cache_no_trim c pre st0 [] (by rw [hcache]; rfl)
      (by simp only [List.length_nil]; omega)
  have hw1 : (addAll st0 c pre).w = w := by rw [addAll_w, hw0]
  have hck1 : (addAll st0 c pre).clock = st0.clock + pre.length := addAll_clock _ _ _
  rw [addAll_append]
  show alookup (add_message (addAll st0 c pre) c lastm.1 lastm.2.1 lastm.2.2).cache c = _
  rw [add_message_cache, h1, hw1, hck1]
  have happ : mkMsgs st0.clock pre ++
      [(⟨st0.clock + pre.length, lastm.1, lastm.2.1, lastm.2.2⟩ : MemMsg)] =
      mkMsgs st0.clock (pre ++ [lastm]) := by
    rw [mkMsgs_append]
    rfl
  rw [happ]
  have hcond : (mkMsgs st0.clock (pre ++ [lastm])).length > w * 2 := by
    rw [mkMsgs_length]
    simp only [List.length_append, List.length_cons, List.length_nil]
    omega
  rw [if_pos hcond]
  unfold pyLastSlice
  rw [if_neg (show ¬w = 0 by omega)]

/-- C1 witness: the theorem instantiated at `W = 1` with three messages for
a fresh contact. -/
theorem c1_witness :
    (1 ≤ 1 ∧ (initMem 1).w = 1 ∧ alookup (initMem 1).cache (chars "myy") = none ∧
      dbFor (initMem 1) (chars "myy") = [] ∧ c1msgs.length = 2 * 1 + 1) ∧
    (alookup (addAll (initMem 1) (chars "myy") c1msgs).cache (chars "myy") =
        some (takeLast 1 (mkMsgs (initMem 1).clock c1msgs)) ∧
      (takeLast 1 (mkMsgs (initMem 1).clock c1msgs)).length = 1 ∧
      dbFor (addAll (initMem 1) (chars "myy") c1msgs) (chars "myy") =
        mkRows (chars "myy") (initMem 1).clock c1msgs ∧
      (mkRows (chars "myy") (initMem 1).clock c1msgs).length = 2 * 1 + 1) :=
  ⟨⟨by decide, by decide, by decide, by decide, by decide⟩,
    c1_bounded_cache_unbounded_log 1 (by decide) (initMem 1) (by decide) (chars "myy")
      (by decide) (by decide) c1msgs (by decide)⟩

theorem Q.lt_of_le_of_lt {a b c : Q} (hab : a.le b) (hbc : b.lt c) : a.lt c := by
  unfold Q.lt at *; unfold Q.le at hab
  have h1 := mul_le_mul_of_nonneg_right hab (Int.le_of_lt c.dpos)
  have h2 := mul_lt_mul_of_pos_right hbc a.dpos
  have h3 : a.num * c.den * b.den < c.num * a.den * b.den := by
    calc a.num * c.den * b.den = a.num * b.den * c.den := by ring
    _ ≤ b.num * a.den * c.den := h1
    _ = b.num * c.den * a.den := by ring
    _ < c.num * b.den * a.den := h2
    _ = c.num * a.den * b.den := by ring
  exact lt_of_mul_lt_mul_right h3 (Int.le_of_lt b.dpos)

theorem Q.lt_of_not_le {a b : Q} (h : ¬a.le b) : b.lt a := by
  unfold Q.le at h; unfold Q.lt; omega

/-- The `classify_intent` fold keeps its accumulator when no remaining
intent both qualifies and strictly beats it. -/
theorem classifyFold_stay (settings : Settings) (ml : List Char)
    (l : List (List Char × IntentCfg)) (b : Option (List Char) × Q)
    (h : ∀ nc ∈ l, (intentThreshold settings nc.2).le (calculate_intent_score settings ml nc.2) →
      (calculate_intent_score settings ml nc.2).le b.2) :
    l.foldl (classifyStep settings ml) b = b := by
  induction l with
  | nil => rfl
  | cons nc rest ih =>
    rw [List.foldl_cons]
    have hstep : classifyStep settings ml b nc = b := by
      unfold classifyStep
      rw [if_neg]
      intro hcontra
      exact Q.not_lt_of_le (h nc (List.mem_cons_self _ _) hcontra.2) hcontra.1
    rw [hstep]
    exact ih fun mc hm => h mc (List.mem_cons_of_mem _ hm)

/-- When some remaining intent qualifies and strictly beats the
accumulator, the fold returns the first-declared qualifying intent of
maximal score. -/
theorem classifyFold_wins (settings : Settings) (ml : List Char)
    (l : List (List Char × IntentCfg)) (b : Option (List Char) × Q)
    (h : ∃ nc ∈ l, (intentThreshold settings nc.2).le (calculate_intent_score settings ml nc.2) ∧
      b.2.lt (calculate_intent_score settings ml nc.2)) :
    ∃ (j : Nat) (hj : j < l.length),
      (intentThreshold settings (l.get ⟨j, hj⟩).2).le
        (calculate_intent_score settings ml (l.get ⟨j, hj⟩).2) ∧
      b.2.lt (calculate_intent_score settings ml (l.get ⟨j, hj⟩).2) ∧
      l.foldl (classifyStep settings ml) b =
        (some (l.get ⟨j, hj⟩).1, calculate_intent_score settings ml (l.get ⟨j, hj⟩).2) ∧
      (∀ nc ∈ l, (intentThreshold settings nc.2).le (calculate_intent_score settings ml nc.2) →
        (calculate_intent_score settings ml nc.2).le
          (calculate_intent_score settings ml (l.get ⟨j, hj⟩).2)) ∧
      (∀ (i : Nat) (hi : i < l.length), i < j →
        ¬((intentThreshold settings (l.get ⟨i, hi⟩).2).le
            (calculate_intent_score settings ml (l.get ⟨i, hi⟩).2) ∧
          (calculate_intent_score settings ml (l.get ⟨j, hj⟩).2).le
            (calculate_intent_score settings ml (l.get ⟨i, hi⟩).2))) := by
  induction l generalizing b with
  | nil =>
    obtain ⟨nc, hm, _⟩ := h
    exact absurd hm (List.not_mem_nil nc)
  | cons nc rest ih =>
    rw [List.foldl_cons]
    by_cases hcond : b.2.lt (calculate_intent_score settings ml nc.2) ∧
        (intentThreshold settings nc.2).le (calculate_intent_score settings ml nc.2)
    · have hstep : classifyStep settings ml b nc =
          (some nc.1, calculate_intent_score settings ml nc.2) := by
        unfold classifyStep
        rw [if_pos hcond]
      rw [hstep]
      by_cases hrest : ∃ mc ∈ rest,
          (intentThreshold settings mc.2).le (calculate_intent_score settings ml mc.2) ∧
          (calculate_intent_score settings ml nc.2).lt (calculate_intent_score settings ml mc.2)
      · obtain ⟨j', hj', hq', hlt', hfold', hmax', hfirst'⟩ :=
          ih (some nc.1, calculate_intent_score settings ml nc.2) hrest
        refine ⟨j' + 1, Nat.succ_lt_succ hj', ?_, ?_, ?_, ?_, ?_⟩
        · simpa using hq'
        · simp only [List.get_cons_succ]
          exact Q.lt_of_lt_of_le hcond.1 (Q.le_of_lt hlt')
        · simpa using hfold'
        · intro mc hm hqm
          rcases List.mem_cons.mp hm with rfl | hm'
          · simp only [List.get_cons_succ]
            exact Q.le_of_lt hlt'
          · simpa using hmax' mc hm' hqm
        · intro i hi hij
          cases i with
          | zero =>
            simp only [List.get_cons_succ, List.get_cons_zero]
            intro hcontra
            exact Q.not_lt_of_le hcontra.2 hlt'
          | succ i' =>
            simp only [List.get_cons_succ]
            exact hfirst' i' (by omega) (by omega)
      · have hnolt : ∀ mc ∈ rest,
            (intentThreshold settings mc.2).le (calculate_intent_score settings ml mc.2) →
            (calculate_intent_score settings ml mc.2).le
              (calculate_intent_score settings ml nc.2) := by
          intro mc hm hqm
          by_contra hcon
          exact hrest ⟨mc, hm, hqm, Q.lt_of_not_le hcon⟩
        have hstay := classifyFold_stay settings ml rest
          (some nc.1, calculate_intent_score settings ml nc.2) hnolt
        refine ⟨0, Nat.succ_pos _, ?_, ?_, ?_, ?_, ?_⟩
        · simpa using hcond.2
        · simpa using hcond.1
        · exact hstay
        · intro mc hm hqm
          rcases List.mem_cons.mp hm with rfl | hm'
          · exact Q.le_refl _
          · simpa using hnolt mc hm' hqm
        · intro i hi hij
          omega
    · have hstep : classifyStep settings ml b nc = b := by
        unfold classifyStep
        rw [if_neg hcond]
      rw [hstep]
      obtain ⟨mc, hm, hqm, hltm⟩ := h
      rcases List.mem_cons.mp hm with rfl | hm'
      · exact absurd ⟨hltm, hqm⟩ hcond
      · obtain ⟨j', hj', hq', hlt', hfold', hmax', hfirst'⟩ := ih b ⟨mc, hm', hqm, hltm⟩
        refine ⟨j' + 1, Nat.succ_lt_succ hj', ?_, ?_, ?_, ?_, ?_⟩
        · simpa using hq'
        · simpa using hlt'
        · simpa using hfold'
        · intro mc2 hm2 hq2
          rcases List.mem_cons.mp hm2 with rfl | hm2'
          · have hnl : ¬b.2.lt (calculate_intent_score settings ml mc2.2) :=
              fun hl => hcond ⟨hl, hq2⟩
            have h1 : (calculate_intent_score settings ml mc2.2).le b.2 := Q.le_of_not_lt hnl
            simp only [List.get_cons_succ]
            exact Q.le_trans h1 (Q.le_of_lt hlt')
          · simpa using hmax' mc2 hm2' hq2
        · intro i hi hij
          cases i with
          | zero =>
            simp only [List.get_cons_succ, List.get_cons_zero]
            intro hcontra
            have hnl : ¬b.2.lt (calculate_intent_score settings ml nc.2) :=
              fun hl => hcond ⟨hl, hcontra.1⟩
            have h1 : (calculate_intent_score settings ml nc.2).le b.2 := Q.le_of_not_lt hnl
            have h2 := Q.lt_of_le_of_lt h1 hlt'
            exact Q.not_lt_of_le hcontra.2 h2
          | succ i' =>
            simp only [List.get_cons_succ]
            exact hfirst' i' (by omega) (by omega)

/-- C2 (amended): when some intent qualifies *with a strictly positive
score*, `classify_intent` returns the first-declared qualifying intent of
maximal score together with that score: ties are broken by declaration
order.  (A qualifying intent whose score is 0 — possible only with a zero
threshold — is never returned; the code's `score > best_score` comparison
starts from 0.) -/
theorem c2_first_declared_max (intents : List (List Char × IntentCfg))
    (settings : Settings) (message : List Char) (hmsg : pyStrip message ≠ [])
    (k : Nat) (hk : k < intents.length)
    (hq : intentQualifies settings message (intents.get ⟨k, hk⟩))
    (hpos : Q.zero.lt (intentScoreOf settings message (intents.get ⟨k, hk⟩))) :
    ∃ (j : Nat) (hj : j < intents.length),
      intentQualifies settings message (intents.get ⟨j, hj⟩) ∧
      classify_intent intents settings message =
        (some (intents.get ⟨j, hj⟩).1, intentScoreOf settings message (intents.get ⟨j, hj⟩)) ∧
      (∀ (i : Nat) (hi : i < intents.length),
        intentQualifies settings message (intents.get ⟨i, hi⟩) →
        (intentScoreOf settings message (intents.get ⟨i, hi⟩)).le
          (intentScoreOf settings message (intents.get ⟨j, hj⟩))) ∧
      (∀ (i : Nat) (hi : i < intents.length), i < j →
        ¬(intentQualifies settings message (intents.get ⟨i, hi⟩) ∧
          (intentScoreOf settings message (intents.get ⟨j, hj⟩)).le
            (intentScoreOf settings message (intents.get ⟨i, hi⟩)))) := by
  obtain ⟨j, hj, hq', hlt', hfold', hmax', hfirst'⟩ :=
    classifyFold_wins settings (pyStrip (pyLower message)) intents (none, Q.zero)
      ⟨intents.get ⟨k, hk⟩, List.get_mem _ _ _, hq, hpos⟩
  refine ⟨j, hj, hq', ?_, ?_, ?_⟩
  · simp only [classify_intent]
    rw [if_neg hmsg]
    exact hfold'
  · intro i hi hqi
    exact hmax' _ (List.get_mem _ _ _) hqi
  · intro i hi hij
    exact hfirst' i hi hij

/-- C2 (counterexample): with one declared intent of threshold 0, no
patterns and no keywords, the message "hello" gives it score 0, so it
qualifies (0 ≥ 0) — yet `classify_intent` returns no intent, refuting the
claim that classify always returns the qualifying intent with the highest
score. -/
theorem c2_counterexample :
    intentQualifies defaultSettings (chars "hello") (chars "alpha", trivialIntentCfg) ∧
    classify_intent [(chars "alpha", trivialIntentCfg)] defaultSettings (chars "hello") =
      (none, Q.zero) := by
  constructor
  · unfold intentQualifies intentScoreOf
    decide
  · decide

/-- C2 witness: the amended theorem applied to a one-intent configuration
(threshold 0, keyword "hi") and the message "hi", whose score 0.3 is
positive. -/
theorem c2_witness :
    ∃ (j : Nat) (hj : j < ([(chars "a", witnessIntentCfg)]).length),
      intentQualifies defaultSettings (chars "hi")
        (([(chars "a", witnessIntentCfg)]).get ⟨j, hj⟩) ∧
      classify_intent [(chars "a", witnessIntentCfg)] defaultSettings (chars "hi") =
        (some (([(chars "a", witnessIntentCfg)]).get ⟨j, hj⟩).1,
          intentScoreOf defaultSettings (chars "hi")
            (([(chars "a", witnessIntentCfg)]).get ⟨j, hj⟩)) ∧
      (∀ (i : Nat) (hi : i < ([(chars "a", witnessIntentCfg)]).length),
        intentQualifies defaultSettings (chars "hi")
          (([(chars "a", witnessIntentCfg)]).get ⟨i, hi⟩) →
        (intentScoreOf defaultSettings (chars "hi")
            (([(chars "a", witnessIntentCfg)]).get ⟨i, hi⟩)).le
          (intentScoreOf defaultSettings (chars "hi")
            (([(chars "a", witnessIntentCfg)]).get ⟨j, hj⟩))) ∧
      (∀ (i : Nat) (hi : i < ([(chars "a", witnessIntentCfg)]).length), i < j →
        ¬(intentQualifies defaultSettings (chars "hi")
            (([(chars "a", witnessIntentCfg)]).get ⟨i, hi⟩) ∧
          (intentScoreOf defaultSettings (chars "hi")
              (([(chars "a", witnessIntentCfg)]).get ⟨j, hj⟩)).le
            (intentScoreOf defaultSettings (chars "hi")
              (([(chars "a", witnessIntentCfg)]).get ⟨i, hi⟩)))) :=
  c2_first_declared_max [(chars "a", witnessIntentCfg)] defaultSettings (chars "hi")
    (by decide) 0 (by decide)
    (by unfold intentQualifies intentScoreOf; decide)
    (by unfold intentScoreOf; decide)

theorem exceptBind_ok {ε α β : Type} (a : α) (f : α → Except ε β) :
    (Except.ok a : Except ε α) >>= f = f a := rfl

theorem exceptBind_err {ε α β : Type} (e : ε) (f : α → Except ε β) :
    (Except.error e : Except ε α) >>= f = .error e := rfl

/-- C5: for every message containing an ending phrase (case-insensitive
substring), `handle_message` returns the fixed closing response and
persists exactly two rows — the user message and the bot response — both
with message type `chat`.  (The metrics logger re-runs the news/chat
classifier; the hypothesis says that call returns rather than raising.) -/
theorem c5_ending_two_chat_rows (env : Env) (st : BotState) (c message : List Char)
    (hend : is_conversation_ending message = true)
    (hmetrics : ∃ b, is_news_query_llm env message = Except.ok b) :
    ∃ st2 : BotState,
      handle_message env st c message = .ok (conversationEndingResponse, st2) ∧
      st2.mem.msgDb = st.mem.msgDb ++
        [⟨c, st.mem.clock, chars "user", message, chars "chat"⟩,
         ⟨c, st.mem.clock + 1, chars "bot", conversationEndingResponse, chars "chat"⟩] ∧
      st2.prefs = st.prefs := by
  obtain ⟨b, hb⟩ := hmetrics
  have hlog : log_conversation_metrics env message = .ok () := by
    unfold log_conversation_metrics
    rw [hb]
    rfl
  refine ⟨⟨add_message (add_message st.mem c (chars "user") message (chars "chat"))
      c (chars "bot") conversationEndingResponse (chars "chat"), st.prefs⟩, ?_, ?_, ?_⟩
  · simp only [handle_message, hend, if_true, hlog, exceptBind_ok]
    rfl
  · simp only [add_message, List.append_assoc]
    rfl
  · rfl

/-- Summary generation only writes the summary table. -/
theorem gcs_preserves (st : MemState) (c : List Char) :
    (generate_conversation_summary st c).2.cache = st.cache ∧
    (generate_conversation_summary st c).2.msgDb = st.msgDb ∧
    (generate_conversation_summary st c).2.clock = st.clock ∧
    (generate_conversation_summary st c).2.w = st.w := by
  simp only [generate_conversation_summary]
  split <;> simp

/-- Summary lookup/regeneration only writes the summary table. -/
theorem summary_preserves (st : MemState) (c : List Char) :
    (get_conversation_summary st c).2.cache = st.cache ∧
    (get_conversation_summary st c).2.msgDb = st.msgDb ∧
    (get_conversation_summary st c).2.clock = st.clock ∧
    (get_conversation_summary st c).2.w = st.w := by
  unfold get_conversation_summary
  rcases h : alookup st.ctxDb c with _ | su
  · exact gcs_preserves st c
  · by_cases hc : st.clock < su.2 + summaryTTL
    · simp [hc]
    · simp only [hc, if_false]
      exact gcs_preserves st c

/-- System-prompt generation only writes the summary table. -/
theorem gsp_preserves (st : MemState) (c : List Char) :
    (generate_system_prompt st c).2.cache = st.cache ∧
    (generate_system_prompt st c).2.msgDb = st.msgDb ∧
    (generate_system_prompt st c).2.clock = st.clock ∧
    (generate_system_prompt st c).2.w = st.w := by
  unfold generate_system_prompt
  exact summary_preserves st c

/-- `get_conversation_context` loads the contact's cache entry when absent
and touches neither the message table, the clock nor the window. -/
theorem gcc_state (st : MemState) (c : List Char) :
    alookup (get_conversation_context st c).2.cache c = some (effectiveCache st c) ∧
    (get_conversation_context st c).2.msgDb = st.msgDb ∧
    (get_conversation_context st c).2.clock = st.clock ∧
    (get_conversation_context st c).2.w = st.w := by
  unfold get_conversation_context
  simp only [if_true]
  rcases h : alookup st.cache c with _ | l
  · simp only [h, Option.isSome_none, Bool.false_eq_true, if_false]
    have hp := gsp_preserves { st with cache := aset st.cache c (load_recent_messages st c) } c
    refine ⟨?_, ?_, ?_, ?_⟩
    · rw [hp.1]
      simp only [effectiveCache, h]
      exact aset_lookup _ _ _
    · rw [hp.2.1]
    · rw [hp.2.2.1]
    · rw [hp.2.2.2]
  · simp only [h, Option.isSome_some, if_true]
    have hp := gsp_preserves st c
    refine ⟨?_, ?_, ?_, ?_⟩
    · rw [hp.1]
      simp only [effectiveCache, h]
    · exact hp.2.1
    · exact hp.2.2.1
    · exact hp.2.2.2

/-- With no extractable topic, `handle_follow_up_question` returns the
fixed clarifying prompt. -/
theorem hfq_prompt (message : List Char) (context : List CtxMsg)
    (htopic : extract_topic (pySplit (pyLower message)) = []) :
    handle_follow_up_question message context = followUpClarifyPrompt := by
  unfold handle_follow_up_question
  rw [htopic]
  rfl

/-- C6 (amended): with winning intent `follow_up`, a news-typed most
recent cached/persisted message and no extractable topic,
`handle_message` performs no retrieval (the search collaborators are
arbitrary and unused; the interest table is unchanged) and returns the
fixed clarifying prompt — but with the news attribution suffix appended,
and both persisted rows are tagged `news`, not `chat`. -/
theorem c6_clarify_tagged_news (env : Env) (st : BotState) (c message : List Char)
    (hend : is_conversation_ending message = false)
    (hint : (classifyDefault message).1 = some (chars "follow_up"))
    (hlast : ∃ m : MemMsg, (effectiveCache st.mem c).getLast? = some m ∧
      m.mtype = chars "news")
    (htopic : extract_topic (pySplit (pyLower message)) = [])
    (hmetrics : ∃ b, is_news_query_llm env message = Except.ok b) :
    ∃ st2 : BotState,
      handle_message env st c message =
        .ok (followUpClarifyPrompt ++ newsAttributionSuffix, st2) ∧
      st2.mem.msgDb = st.mem.msgDb ++
        [⟨c, st.mem.clock, chars "user", message, chars "news"⟩,
         ⟨c, st.mem.clock + 1, chars "bot",
           followUpClarifyPrompt ++ newsAttributionSuffix, chars "news"⟩] ∧
      st2.prefs = st.prefs := by
  obtain ⟨m, hm, hmt⟩ := hlast
  obtain ⟨b, hb⟩ := hmetrics
  have hlog : log_conversation_metrics env message = .ok () := by
    unfold log_conversation_metrics
    rw [hb]
    rfl
  have hgcc := gcc_state st.mem c
  have hnend : ¬is_conversation_ending message = true := by
    rw [hend]
    exact Bool.false_ne_true
  have hnspec : ¬((classifyDefault message).1 = some (chars "date_request") ∨
      (classifyDefault message).1 = some (chars "name_request") ∨
      (classifyDefault message).1 = some (chars "capability_question") ∨
      (classifyDefault message).1 = some (chars "correction")) := by
    rw [hint]
    decide
  have hbranch : handleMessageBranch env st (get_conversation_context st.mem c).2
      (get_conversation_context st.mem c).1 c message =
      .ok (followUpClarifyPrompt, chars "news", st.prefs) := by
    unfold handleMessageBranch
    rw [if_pos hint]
    rw [hgcc.1]
    simp only [Option.getD_some]
    rw [hm]
    simp only []
    rw [if_pos hmt]
    rw [hfq_prompt message _ htopic]
    rw [if_neg (by decide :
      ¬(¬(followUpClarifyPrompt.isEmpty = true) ∧
        pyStartswith (chars "I'd be happy") followUpClarifyPrompt = false))]
  refine ⟨⟨add_message (add_message (get_conversation_context st.mem c).2 c
      (chars "user") message (chars "news")) c (chars "bot")
      (followUpClarifyPrompt ++ newsAttributionSuffix) (chars "news"), st.prefs⟩,
    ?_, ?_, ?_⟩
  · simp only [handle_message]
    rw [if_neg hnend, if_neg hnspec]
    rw [hbranch, exceptBind_ok]
    simp only []
    have henh : enhance_response_quality env followUpClarifyPrompt (chars "news") =
        followUpClarifyPrompt ++ newsAttributionSuffix := by
      unfold enhance_response_quality
      rw [if_pos rfl]
    rw [henh, hlog, exceptBind_ok]
    rfl
  · simp only [add_message, hgcc.2.1, hgcc.2.2.1, List.append_assoc]
    rfl
  · rfl

/-- C5 witness: the theorem applied to the message "bye" in a fresh state
under the benign environment. -/
theorem c5_witness :
    (is_conversation_ending (chars "bye") = true ∧
      is_news_query_llm okEnvW (chars "bye") = Except.ok false) ∧
    (∃ st2 : BotState,
      handle_message okEnvW initBot (chars "myy") (chars "bye") =
        .ok (conversationEndingResponse, st2) ∧
      st2.mem.msgDb = initBot.mem.msgDb ++
        [⟨chars "myy", initBot.mem.clock, chars "user", chars "bye", chars "chat"⟩,
         ⟨chars "myy", initBot.mem.clock + 1, chars "bot", conversationEndingResponse,
           chars "chat"⟩] ∧
      st2.prefs = initBot.prefs) :=
  ⟨⟨by decide, by decide⟩,
    c5_ending_two_chat_rows okEnvW initBot (chars "myy") (chars "bye")
      (by decide) ⟨false, by decide⟩⟩

/-- C6 (counterexample): for "tell me more" after a news-typed message the
bot answers the clarifying prompt *with the news attribution suffix* and
persists both rows as `news` — refuting the claimed `chat` tagging and the
claimed exact clarifying-prompt response. -/
theorem c6_counterexample :
    (handle_message okEnvW newsHistoryState (chars "myy") (chars "tell me more")).map
        (fun r => (r.1, r.2.mem.msgDb.map DbRow.mtype)) =
      .ok (followUpClarifyPrompt ++ newsAttributionSuffix,
        [chars "news", chars "news", chars "news"]) ∧
    followUpClarifyPrompt ++ newsAttributionSuffix ≠ followUpClarifyPrompt ∧
    chars "news" ≠ chars "chat" :=
  ⟨by decide, by decide, by decide⟩

/-- C6 witness: the amended theorem applied to "tell me more" after a
news-typed message. -/
theorem c6_witness :
    ∃ st2 : BotState,
      handle_message okEnvW newsHistoryState (chars "myy") (chars "tell me more") =
        .ok (followUpClarifyPrompt ++ newsAttributionSuffix, st2) ∧
      st2.mem.msgDb = newsHistoryState.mem.msgDb ++
        [⟨chars "myy", newsHistoryState.mem.clock, chars "user", chars "tell me more",
           chars "news"⟩,
         ⟨chars "myy", newsHistoryState.mem.clock + 1, chars "bot",
           followUpClarifyPrompt ++ newsAttributionSuffix, chars "news"⟩] ∧
      st2.prefs = newsHistoryState.prefs :=
  c6_clarify_tagged_news okEnvW newsHistoryState (chars "myy") (chars "tell me more")
    (by decide) (by decide)
    ⟨⟨0, chars "user", chars "kenya politics", chars "news"⟩, by decide, by decide⟩
    (by decide) ⟨false, by decide⟩

/-- C4 (amended): vector-search failures degrade to an empty result list
and summarisation failures to the bracketed error string, without
propagating — but a news/chat LLM-classification (chat-completion
capability) failure is uncaught and propagates out of `handle_message` to
the caller. -/
theorem c4_degradation_and_propagation :
    (∀ (env : Env) (q : List Char) (topK : Nat) (thr : Q) (e : List Char),
      env.searchPlain q topK thr = .error e → search_articles env q topK thr = []) ∧
    (∀ (env : Env) (q sd ed : List Char) (topK : Nat) (e : List Char),
      env.searchRange q sd ed topK = .error e → search_by_date_range env q sd ed topK = []) ∧
    (∀ (env : Env) (text : List Char) (n : Nat) (e : List Char),
      env.sambaPresent = true → env.summarizer text n = .error e →
      summarize_with_sambanova env text n =
        chars "[SambaNova API error: " ++ e ++ chars "]") ∧
    handle_message failCatEnv initBot (chars "myy") (chars "hello") =
      .error (chars "boom") := by
  refine ⟨?_, ?_, ?_, by decide⟩
  · intro env q topK thr e h
    unfold search_articles
    rw [h]
  · intro env q sd ed topK e h
    unfold search_by_date_range
    rw [h]
  · intro env text n e hp h
    unfold summarize_with_sambanova
    rw [hp, h]
    rfl

/-- C4 (counterexample): with a failing chat-completion-backed news
classifier, `handle_message` on the plain chat message "hello" raises the
error to the caller instead of returning a degraded response — refuting
"never propagates an exception to the message sender". -/
theorem c4_counterexample :
    handle_message failCatEnv initBot (chars "myy") (chars "hello") =
      .error (chars "boom") ∧
    ∀ r : List Char × BotState,
      handle_message failCatEnv initBot (chars "myy") (chars "hello") ≠ .ok r := by
  refine ⟨by decide, ?_⟩
  intro r h
  rw [show handle_message failCatEnv initBot (chars "myy") (chars "hello") =
    .error (chars "boom") from by decide] at h
  exact absurd h (by simp)

/-- C4 witness: the degradation conjuncts applied to the all-failing
environment. -/
theorem c4_witness :
    search_articles allFailEnv (chars "news") 5 (Q.mk' 1 2) = [] ∧
    search_by_date_range allFailEnv (chars "news") (chars "2025-07-01")
      (chars "2025-07-27") 5 = [] ∧
    summarize_with_sambanova allFailEnv (chars "text") 2 =
      chars "[SambaNova API error: " ++ chars "down" ++ chars "]" :=
  ⟨c4_degradation_and_propagation.1 allFailEnv (chars "news") 5 (Q.mk' 1 2)
      (chars "down") rfl,
    c4_degradation_and_propagation.2.1 allFailEnv (chars "news") (chars "2025-07-01")
      (chars "2025-07-27") 5 (chars "down") rfl,
    c4_degradation_and_propagation.2.2.1 allFailEnv (chars "text") 2 (chars "down")
      rfl rfl⟩
